import Mathlib

/-!
# dnsdbflex: query construction, validation and backend selection

A shallow embedding of `src/dnsdbflex.c`.  C strings are lists of bytes
(the bytes before the terminating NUL), process termination is an explicit
outcome, and the diagnostic stream is a trace of what was written to it.
Code that lives in other translation units (`defs.h`, `netio.c`, `time.c`,
`pdns_dnsdb.c`, libc) is taken as a parameter, collected in `Env`.
Allocation failure (`strdup`, `asprintf`, `CREATE`) and the `DEBUG` trace
output are not modelled.
-/

namespace Dnsdbflex

/-! ## C strings -/

/-- A C string: the bytes that precede its terminating NUL. -/
abbrev CStr := List Nat

/-- The bytes of an ASCII string literal. -/
def cstr (s : String) : CStr := s.toList.map Char.toNat

/-- The text `printf` produces for a decimal conversion of a natural number. -/
def dec (n : Nat) : CStr := cstr (toString n)

/-- Libc `strlen`. -/
def strlen (s : CStr) : Nat := s.length

/-- The characters compared against in `check_glob_trailing_char`. -/
def ch_star : Nat := 42
/-- The character `?`. -/
def ch_question : Nat := 63
/-- The character `]`. -/
def ch_rbracket : Nat := 93
/-- The character `.`. -/
def ch_period : Nat := 46
/-- The double quote character. -/
def ch_dquote : Nat := 34
/-- The character `/`. -/
def ch_slash : Nat := 47
/-- The newline character, octal 012. -/
def ch_newline : Nat := 10
/-- The space character, octal 040. -/
def ch_space : Nat := 32

/-- Libc `isprint` in the "C" locale (the program never calls `setlocale`):
true exactly for the bytes 0x20..0x7E. -/
def isprint (ch : Nat) : Bool := decide (0x20 ≤ ch) && decide (ch ≤ 0x7E)

/-- Libc `strrchr(s, c) != NULL ? strrchr(s, c) + 1 : s` as used for
`program_name` in `main`: what follows the last occurrence of `c`, or all of
`s` when `c` does not occur. -/
def after_last (c : Nat) : CStr → CStr
  | [] => []
  | x :: xs =>
    if xs.contains c then after_last c xs
    else if x = c then xs
    else x :: xs

/-- Libc `strtok_r(s, delim, &saveptr)`: the next token and the new value of
`saveptr`.  `s = none` is the NULL argument that continues from `saveptr`. -/
def strtok_r (s : Option CStr) (delim : CStr) (saveptr : CStr) : Option CStr × CStr :=
  let s0 := s.getD saveptr
  let s1 := s0.dropWhile (fun c => delim.contains c)
  match s1 with
  | [] => (none, [])
  | _ :: _ =>
    let tok := s1.takeWhile (fun c => !delim.contains c)
    match s1.dropWhile (fun c => !delim.contains c) with
    | [] => (some tok, [])
    | _ :: rest => (some tok, rest)

/-! ## Data model (`defs.h`, as used by `dnsdbflex.c`) -/

/-- The `search_method` field of `struct qdesc`. -/
inductive search_method_e where
  | method_none
  | method_glob
  | method_regex
deriving DecidableEq, Repr

/-- The `what_to_search` field of `struct qdesc`. -/
inductive what_to_search_e where
  | search_rrnames
  | search_rdata
deriving DecidableEq, Repr

/-- The `mode_to_return` field of `struct qdesc`. -/
inductive mode_to_return_e where
  | return_terse
  | return_details
deriving DecidableEq, Repr

/-- The `presentation` global. -/
inductive present_e where
  | pres_none
  | pres_json
  | pres_batch
  | pres_batch_dedup_rrtype
deriving DecidableEq, Repr

/-- The `curl_ipresolve` global. -/
inductive ipresolve_e where
  | CURL_IPRESOLVE_WHATEVER
  | CURL_IPRESOLVE_V4
  | CURL_IPRESOLVE_V6
deriving DecidableEq, Repr

/-- The query descriptor `struct qdesc`.  Pointer fields are `none` when NULL;
`after` and `before` are `u_long` epoch values with 0 meaning unset;
the limits are `long` with -1 meaning unset. -/
structure qdesc where
  search_method : search_method_e
  what_to_search : what_to_search_e
  mode_to_return : mode_to_return_e
  value : Option CStr
  exclude : Option CStr
  rrtype : Option CStr
  after : Nat
  before : Nat
  complete : Bool
  query_limit : Int
  output_limit : Int
  offset : Int
deriving DecidableEq, Repr

/-- The time fence `struct pdns_fence`; a field that is 0 is absent. -/
structure pdns_fence where
  first_after : Nat
  first_before : Nat
  last_after : Nat
  last_before : Nat
deriving DecidableEq, Repr

/-- The members of `struct pdns_system` that `dnsdbflex.c` calls with data:
`name`, `setval(key, value)` (an error message or NULL) and
`url(path, NULL, qdp, fence)` (a URL or NULL).  The bodies live in
`pdns_dnsdb.c`, which is not part of this source. -/
structure pdns_system where
  name : CStr
  setval : CStr → CStr → Option CStr
  url : CStr → qdesc → pdns_fence → Option CStr

/-- One write to the diagnostic stream. -/
inductive Diag where
  | write (text : CStr)
  | perror (s : CStr)
  | my_logf (msg : CStr)
deriving DecidableEq, Repr

/-- A launched request: `struct query` as filled in by `query_launcher`,
together with the URL handed to `create_fetch`. -/
structure query where
  qd : qdesc
  command : CStr
  fence : pdns_fence
  url : CStr
deriving DecidableEq, Repr

/-- The program state: the globals of `globals.h` that `dnsdbflex.c` reads or
writes, the file-static `force_query`, the static `qd` of `main`, and the
traces of the effects on the outside world. -/
structure State where
  program_name : CStr
  quiet : Bool
  debug_level : Nat
  presentation : present_e
  donotverify : Bool
  curl_timeout : Int
  curl_ipresolve : ipresolve_e
  psys : Option pdns_system
  force_query : Bool
  qd : qdesc
  stderr : List Diag
  setvals : List (CStr × CStr × CStr)
  fetches : List query

/-- How a call ends: it returns a value, the process exits with a code, or
the behaviour is undefined (a NULL pointer is dereferenced). -/
inductive Outcome (α : Type) where
  | ret (a : α) (g : State)
  | exit (code : Nat) (g : State)
  | fault

/-- Sequencing: the continuation runs only after a normal return. -/
def Outcome.andThen {α β : Type} (r : Outcome α) (k : α → State → Outcome β) : Outcome β :=
  match r with
  | .ret a g => k a g
  | .exit c g => .exit c g
  | .fault => .fault

/-- What `strtol(in, &ep, 10)` leaves behind: `errno`, the result, and how many
bytes were consumed (`ep - in`). -/
structure strtol_result where
  errno : Nat
  result : Int
  consumed : Nat

/-- The code outside `dnsdbflex.c` that it depends on. -/
structure Env where
  MAX_VALUE_LEN : Nat
  WANT_PDNS_DNSDB2 : Bool
  DETAILS_SUPPORTED : Bool
  DNSDBQ_SYSTEM : CStr
  env_timeout : CStr
  ERANGE : Nat
  pdns_dnsdb2 : pdns_system
  time_get : CStr → Option Nat
  strtol : CStr → strtol_result
  escape : Option CStr → Except Nat (Option CStr)

/-- The value `LONG_MAX` of an LP64 platform. -/
def LONG_MAX : Int := 2 ^ 63 - 1
/-- The value `LONG_MIN` of an LP64 platform. -/
def LONG_MIN : Int := -(2 ^ 63)

/-! ## Process termination and diagnostics -/

/-- Source `my_exit`: terminate the process with `code`. -/
def my_exit {α : Type} (code : Nat) (g : State) : Outcome α :=
  .exit code g

/-- Append one write to the diagnostic stream. -/
def State.emit (g : State) (d : Diag) : State :=
  { g with stderr := g.stderr ++ [d] }

/-- Source `my_panic`: display an error on the diagnostic stream, exit 1. -/
def my_panic {α : Type} (want_perror : Bool) (s : CStr) (g : State) : Outcome α :=
  let g1 := g.emit (.write (g.program_name ++ cstr ": "))
  let g2 := if want_perror then g1.emit (.perror s)
            else g1.emit (.write (s ++ cstr "\n"))
  my_exit 1 g2

/-- Source `usage`: display a usage error message and the hint, then exit 1.
`msg` is the formatted message. -/
def usage {α : Type} (msg : CStr) (g : State) : Outcome α :=
  let g1 := g.emit (.write (cstr "error: "))
  let g2 := g1.emit (.write msg)
  let g3 := g2.emit (.write (cstr "\n\n"))
  let g4 := g3.emit (.write (cstr "try   " ++ g.program_name ++
    cstr " -h   for a short description of program usage.\n"))
  my_exit 1 g4

/-! ## Helpers of `main` -/

/-- Source `pick_system`: return a named system descriptor, or NULL. -/
def pick_system (E : Env) (name : CStr) : Option pdns_system :=
  if E.WANT_PDNS_DNSDB2 ∧ name = cstr "dnsdb2" then some E.pdns_dnsdb2
  else none

/-- Source `parse_long`: parse a base 10 long value; `none` is the `false`
return, `some v` is `true` with `*out = v`. -/
def parse_long (E : Env) (inp : CStr) : Option Int :=
  let r := E.strtol inp
  if (r.errno = E.ERANGE ∧ (r.result = LONG_MAX ∨ r.result = LONG_MIN)) ∨
     (r.errno ≠ 0 ∧ r.result = 0) ∨
     r.consumed = 0
  then none
  else some r.result

/-- Source `set_timeout`: ingest a setting for `curl_timeout`; exits through
`usage` if the value is invalid. -/
def set_timeout (E : Env) (value source : CStr) (g : State) : Outcome Unit :=
  match parse_long E value with
  | none => usage (source ++ cstr " must be non-negative") g
  | some v =>
    let g1 := { g with curl_timeout := v }
    if v < 0 then usage (source ++ cstr " must be non-negative") g1
    else .ret () g1

/-- The message `check_printable_ascii` returns on failure. -/
def printable_ascii_msg : CStr :=
  cstr "expression argument is not printable ASCII.\nUse \\DDD to encode non-printable characters, where DDD is the decimal value of the character"

/-- Source `check_printable_ascii`: check if its argument is printable ASCII;
returns NULL (`none`) on success, else an error message. -/
def check_printable_ascii : CStr → Option CStr
  | [] => none
  | ch :: name =>
    if !isprint ch then some printable_ascii_msg
    else check_printable_ascii name

/-- The guidance text of `check_glob_trailing_char` for rdata searches. -/
def glob_msg_rdata : CStr :=
  cstr "a glob search argument for rdata should end either in a period,\na double quote, or certain glob special characters (*, ?, or ])."

/-- The guidance text of `check_glob_trailing_char` for rrnames searches. -/
def glob_msg_rrnames : CStr :=
  cstr "a glob search argument for rrnames should end either in a period\nor certain glob special characters (*, ?, or ])."

/-- Source `check_glob_trailing_char`: check if a glob ends in a useful
character.  If `warn_only` then just warn; otherwise it is fatal. -/
def check_glob_trailing_char (warn_only : Bool) (qdp : qdesc) (g : State) : Outcome Unit :=
  match qdp.value with
  | none => .fault
  | some value =>
    let sz := strlen value
    if sz = 0 then usage (cstr "search argument is blank.") g
    else
      let last_ch := value.getD (sz - 1) 0
      if last_ch = ch_star ∨ last_ch = ch_question ∨ last_ch = ch_rbracket ∨
         last_ch = ch_period then .ret () g
      else
        let report (msg : CStr) : Outcome Unit :=
          if warn_only then
            if !g.quiet then
              .ret () (g.emit (.write (cstr "Warning: " ++ msg ++
                cstr "\nYou may not get results from your search.\n")))
            else .ret () g
          else
            my_exit 1 (g.emit (.write (cstr "Error: " ++ msg ++
              cstr "\nYou may not get results from your search.\n")))
        if qdp.what_to_search = .search_rdata then
          if last_ch = ch_dquote then .ret () g
          else report glob_msg_rdata
        else report glob_msg_rrnames

/-! ## Query construction -/

/-- Source `makepath`: make a RESTful URI that describes these search
parameters. -/
def makepath (qdp : qdesc) (g : State) : Outcome CStr :=
  match qdp.search_method with
  | .method_none => my_panic true (cstr "bad search_method") g
  | m =>
    let search_method_s := if m = .method_regex then cstr "regex" else cstr "glob"
    let what_to_search_s :=
      match qdp.what_to_search with
      | .search_rrnames => cstr "rrnames"
      | .search_rdata => cstr "rdata"
    match qdp.value with
    | none => .fault
    | some value =>
      match qdp.rrtype with
      | some rrtype =>
        .ret (search_method_s ++ [ch_slash] ++ what_to_search_s ++ [ch_slash] ++
              value ++ [ch_slash] ++ rrtype) g
      | none =>
        .ret (search_method_s ++ [ch_slash] ++ what_to_search_s ++ [ch_slash] ++
              value) g

/-- The time fencing block of `query_launcher`: the fence starts zeroed
(`struct pdns_fence fence = {}`) and the descriptor's bounds are copied in. -/
def query_launcher_fence (qdp : qdesc) : pdns_fence :=
  let fence : pdns_fence := ⟨0, 0, 0, 0⟩
  let fence :=
    if qdp.after ≠ 0 then
      if qdp.complete then { fence with first_after := qdp.after }
      else { fence with last_after := qdp.after }
    else fence
  let fence :=
    if qdp.before ≠ 0 then
      if qdp.complete then { fence with last_before := qdp.before }
      else { fence with first_before := qdp.before }
    else fence
  fence

/-- Source `query_launcher`: build the path and the fence, ask the selected
system for the URL and hand the query to `create_fetch`. -/
def query_launcher (qdp : qdesc) (g : State) : Outcome Unit :=
  (makepath qdp g).andThen fun command g1 =>
    let fence := query_launcher_fence qdp
    match g1.psys with
    | none => .fault
    | some sys =>
      match sys.url command qdp fence with
      | none => my_exit 1 g1
      | some url =>
        .ret () { g1 with fetches := g1.fetches ++ [⟨qdp, command, fence, url⟩] }

/-- Reference definition, in the words of the
specification: the Fence of section 4.3, with absent fields.
`firstAfter = after` when `after` is set and `complete`; `lastAfter = after`
when `after` is set and not `complete`; `lastBefore = before` when `before`
is set and `complete`; `firstBefore = before` when `before` is set and not
`complete`; unset bounds leave the fields absent. -/
structure spec_fence where
  firstAfter : Option Nat
  firstBefore : Option Nat
  lastAfter : Option Nat
  lastBefore : Option Nat
deriving DecidableEq, Repr

/-- The reference fence translation, following the words of the
specification (0 means unset). -/
def spec_fence_of (after before : Nat) (complete : Bool) : spec_fence :=
  { firstAfter := if after ≠ 0 ∧ complete = true then some after else none
    lastAfter := if after ≠ 0 ∧ complete = false then some after else none
    lastBefore := if before ≠ 0 ∧ complete = true then some before else none
    firstBefore := if before ≠ 0 ∧ complete = false then some before else none }

/-- Read a fence field of the code: 0 is an absent bound. -/
def fence_field (x : Nat) : Option Nat := if x = 0 then none else some x

/-- The code's fence seen as a fence of the specification. -/
def pdns_fence.toSpec (f : pdns_fence) : spec_fence :=
  { firstAfter := fence_field f.first_after
    firstBefore := fence_field f.first_before
    lastAfter := fence_field f.last_after
    lastBefore := fence_field f.last_before }

/-! ## Configuration resolution -/

/-- The delimiters `"\040\012"` given to `strtok_r` in `read_configs`. -/
def conf_delim : CStr := [ch_space, ch_newline]

/-- The tail of the `read_configs` loop body: if this variable is for the
selected system, consume it (`psys->setval`), and leave through `usage` when
the system rejects it. -/
def read_configs_consume (sys : pdns_system) (tok1 tok2 tok3 : CStr) (g : State) :
    Outcome Unit :=
  if tok1 = sys.name then
    let g1 := { g with setvals := g.setvals ++ [(sys.name, tok2, tok3)] }
    match sys.setval tok2 tok3 with
    | some msg => usage msg g1
    | none => .ret () g1
  else .ret () g

/-- The body of the `while (getline(...) > 0)` loop of `read_configs`, for
the line numbered `l` (the value of `l` after `l++`). -/
def read_configs_line (E : Env) (l : Nat) (line : CStr) (g : State) : Outcome Unit :=
  if !line.contains ch_newline then
    my_exit 1 (g.emit (.write (g.program_name ++ cstr ": conf line #" ++ dec l ++
      cstr ": too long\n")))
  else
    let r1 := strtok_r (some line) conf_delim []
    let r2 := strtok_r none conf_delim r1.2
    let r3 := strtok_r none conf_delim r2.2
    match r1.1, r2.1 with
    | some tok1, some tok2 =>
      match r3.1 with
      | none => .ret () g
      | some tok3 =>
        if tok3 = [] then .ret () g
        else if tok1 = cstr "dnsdbq" then
          if g.psys.isNone ∧ tok2 = cstr "system" then
            match pick_system E tok3 with
            | none =>
              my_exit 1 (g.emit (.my_logf (cstr "unknown " ++ E.DNSDBQ_SYSTEM ++
                [ch_space] ++ tok3)))
            | some sys => .ret () { g with psys := some sys }
          else .ret () g
        else
          match g.psys with
          | none =>
            match pick_system E tok1 with
            | none => .ret () g
            | some sys => read_configs_consume sys tok1 tok2 tok3 { g with psys := some sys }
          | some sys => read_configs_consume sys tok1 tok2 tok3 g
    | _, _ =>
      my_exit 1 (g.emit (.my_logf (cstr "conf line #" ++ dec l ++ cstr ": malformed")))

/-- The `while (getline(...) > 0)` loop of `read_configs`; `l` is the number
of lines read so far. -/
def read_configs_loop (E : Env) : Nat → List CStr → State → Outcome Unit
  | _, [], g => .ret () g
  | l, line :: rest, g =>
    (read_configs_line E (l + 1) line g).andThen fun _ g1 =>
      read_configs_loop E (l + 1) rest g1

/-- What `read_configs` finds outside the process: the config file named in
the environment is unreadable (with the `strerror` text), no config file is
readable, or a file `cf` is used and `popen` of the shell command either
fails (with the `strerror` text) or delivers these lines. -/
inductive conf_source where
  | env_unreadable (value : CStr) (err : CStr)
  | not_found
  | found (cf : CStr) (out : Except CStr (List CStr))

/-- The shell command `read_configs` builds for the config file `cf`. -/
def conf_cmd (E : Env) (cf : CStr) : CStr :=
  cstr ". " ++ cf ++ cstr ";echo dnsdbq system $" ++ E.DNSDBQ_SYSTEM ++ cstr ";" ++
  (if E.WANT_PDNS_DNSDB2 then
    cstr "echo dnsdb2 apikey $\x7bDNSDB_API_KEY:-$APIKEY\x7d;echo dnsdb2 server $DNSDB_SERVER;"
   else []) ++
  cstr "exit"

/-- Source `read_configs`: try to find a config file in static path, then
parse it. -/
def read_configs (E : Env) (src : conf_source) (g : State) : Outcome Unit :=
  match src with
  | .env_unreadable value err =>
    my_exit 1 (g.emit (.my_logf (cstr "Cannot read configuration file '" ++ value ++
      cstr "' named in env variable: " ++ err)))
  | .not_found => .ret () g
  | .found cf (.error err) =>
    my_exit 1 (g.emit (.my_logf (cstr "[" ++ conf_cmd E cf ++ cstr "]: " ++ err)))
  | .found _ (.ok lines) => read_configs_loop E 0 lines g

/-! ## Option processing and validation in `main` -/

/-- What `getopt_long` returns on one iteration of the option loop: a long
option (through `long_opt_switch`), a short option that has a `case`, or
anything else (`'?'`, and the letters of the option string without a case). -/
inductive Opt where
  | long_none
  | long_exclude (optarg : CStr)
  | long_force
  | long_glob (optarg : CStr)
  | long_mode (optarg : CStr)
  | long_regex (optarg : CStr)
  | long_timeout (optarg : CStr)
  | A (optarg : CStr)
  | B (optarg : CStr)
  | c
  | d
  | F
  | h
  | j
  | l (optarg : CStr)
  | O (optarg : CStr)
  | q
  | s (optarg : CStr)
  | t (optarg : CStr)
  | T
  | u (optarg : CStr)
  | U
  | v
  | four
  | six
  | other
deriving DecidableEq, Repr

/-- The static initialiser of `qd` in `main`. -/
def qd_init : qdesc :=
  { search_method := .method_none
    what_to_search := .search_rrnames
    mode_to_return := .return_details
    value := none
    exclude := none
    rrtype := none
    after := 0
    before := 0
    complete := false
    query_limit := -1
    output_limit := -1
    offset := 0 }

/-- The formatted "too long" message of the long options. -/
def too_long_msg (E : Env) (opt : String) : CStr :=
  cstr "The --" ++ cstr opt ++ cstr " option is too long (" ++ dec E.MAX_VALUE_LEN ++
  cstr " is the maximum length)"

/-- The body of the option loop of `main`: the `switch (ch)` for one option. -/
def main_option (E : Env) (o : Opt) (g : State) : Outcome Unit :=
  match o with
  | .long_timeout optarg =>
    let sz := strlen optarg
    if sz = 0 then usage (cstr "The --timeout option requires a non-empty argument") g
    else if sz > E.MAX_VALUE_LEN then usage (too_long_msg E "timeout") g
    else set_timeout E optarg (cstr "--timeout") g
  | .long_regex optarg =>
    let sz := strlen optarg
    if sz = 0 then usage (cstr "The --regex option requires a non-empty argument") g
    else if sz > E.MAX_VALUE_LEN then usage (too_long_msg E "regex") g
    else if g.qd.value ≠ none then
      usage (cstr "Cannot specify --glob or --regex more than once") g
    else .ret () { g with qd := { g.qd with value := some optarg,
                                            search_method := .method_regex } }
  | .long_glob optarg =>
    let sz := strlen optarg
    if sz = 0 then usage (cstr "The --glob option requires a non-empty argument") g
    else if sz > E.MAX_VALUE_LEN then usage (too_long_msg E "glob") g
    else if g.qd.value ≠ none then
      usage (cstr "Cannot specify --glob or --regex more than once") g
    else .ret () { g with qd := { g.qd with value := some optarg,
                                            search_method := .method_glob } }
  | .long_exclude optarg =>
    let sz := strlen optarg
    if sz = 0 then usage (cstr "The --exclude option requires a non-empty argument") g
    else if sz > E.MAX_VALUE_LEN then usage (too_long_msg E "exclude") g
    else if g.qd.exclude ≠ none then
      usage (cstr "Cannot specify --exclude more than once") g
    else .ret () { g with qd := { g.qd with exclude := some optarg } }
  | .long_force => .ret () { g with force_query := true }
  | .long_mode optarg =>
    let sz := strlen optarg
    if sz = 0 then usage (cstr "The --mode option requires a non-empty argument") g
    else if optarg = cstr "terse" ∨ optarg = cstr "t" then
      .ret () { g with qd := { g.qd with mode_to_return := .return_terse } }
    else if E.DETAILS_SUPPORTED ∧ (optarg = cstr "details" ∨ optarg = cstr "d") then
      .ret () { g with qd := { g.qd with mode_to_return := .return_details } }
    else if E.DETAILS_SUPPORTED then
      usage (cstr "Illegal mode value, must be 'terse'|'t' or 'details'|'d'") g
    else usage (cstr "Illegal mode value, must be 'terse'|'t'") g
  | .long_none => .ret () g
  | .A optarg =>
    match E.time_get optarg with
    | none => usage (cstr "bad -A timestamp") g
    | some t =>
      let g1 := { g with qd := { g.qd with after := t } }
      if t = 0 then usage (cstr "bad -A timestamp") g1 else .ret () g1
  | .B optarg =>
    match E.time_get optarg with
    | none => usage (cstr "bad -B timestamp") g
    | some t =>
      let g1 := { g with qd := { g.qd with before := t } }
      if t = 0 then usage (cstr "bad -B timestamp") g1 else .ret () g1
  | .c => .ret () { g with qd := { g.qd with complete := true } }
  | .d => .ret () { g with debug_level := g.debug_level + 1 }
  | .F => .ret () { g with presentation := .pres_batch }
  | .h => my_exit 0 g
  | .j => .ret () { g with presentation := .pres_json }
  | .l optarg =>
    match parse_long E optarg with
    | none => usage (cstr "-l must be zero or positive") g
    | some n =>
      let g1 := { g with qd := { g.qd with query_limit := n } }
      if n < 0 then usage (cstr "-l must be zero or positive") g1 else .ret () g1
  | .O optarg =>
    match parse_long E optarg with
    | none => usage (cstr "-O must be zero or positive") g
    | some n =>
      let g1 := { g with qd := { g.qd with offset := n } }
      if n < 0 then usage (cstr "-O must be zero or positive") g1 else .ret () g1
  | .q => .ret () { g with quiet := true }
  | .s optarg =>
    if optarg = cstr "rrnames" ∨ optarg = cstr "n" then
      .ret () { g with qd := { g.qd with what_to_search := .search_rrnames } }
    else if optarg = cstr "rdata" ∨ optarg = cstr "d" then
      .ret () { g with qd := { g.qd with what_to_search := .search_rdata } }
    else usage (cstr "Illegal what to search, must be 'rrnames'|'n' or 'rdata'|'d'") g
  | .t optarg => .ret () { g with qd := { g.qd with rrtype := some optarg } }
  | .T => .ret () { g with presentation := .pres_batch_dedup_rrtype }
  | .u optarg =>
    let g1 := { g with psys := pick_system E optarg }
    match g1.psys with
    | none => usage (cstr "-u must refer to a pdns system") g1
    | some _ => .ret () g1
  | .U => .ret () { g with donotverify := true }
  | .v => my_exit 0 g
  | .four => .ret () { g with curl_ipresolve := .CURL_IPRESOLVE_V4 }
  | .six => .ret () { g with curl_ipresolve := .CURL_IPRESOLVE_V6 }
  | .other => usage (cstr "unrecognized option") g

/-- The option loop of `main`: `while ((ch = getopt_long(...)) != -1)`. -/
def main_options (E : Env) : List Opt → State → Outcome Unit
  | [], g => .ret () g
  | o :: os, g => (main_option E o g).andThen fun _ g1 => main_options E os g1

/-- What the process is started with: `argv[0]`, the value of the timeout
environment variable when set, the options in the order `getopt_long`
delivers them, and the number of arguments left over (`argc - optind`). -/
structure Input where
  argv0 : CStr
  timeout : Option CStr
  opts : List Opt
  nonopts : Nat

/-- The start of `main` (lines 92-110): `qd` and `force_query` have their
static initial values, `program_name` is set from `argv[0]`, and the timeout
of the environment is ingested. -/
def main_startup (E : Env) (inp : Input) (g0 : State) : Outcome Unit :=
  let g := { g0 with qd := qd_init, force_query := false,
                     program_name := after_last ch_slash inp.argv0 }
  match inp.timeout with
  | some value => set_timeout E value E.env_timeout g
  | none => .ret () g

/-- Lines 329-336 of `main`: there are no non-option arguments, and a
pattern was given. -/
def main_need_pattern (nonopts : Nat) (g : State) : Outcome Unit :=
  if nonopts ≠ 0 then usage (cstr "there are no non-option arguments to this program") g
  else if g.qd.value = none then
    usage (cstr "Need to provide a --regex or --glob option and its argument") g
  else .ret () g

/-- Lines 338-341 of `main`: the glob suffix check, and the rejection of
`--force` for anything but a glob query. -/
def main_check_force (g : State) : Outcome Unit :=
  if g.qd.search_method = .method_glob then
    check_glob_trailing_char g.force_query g.qd g
  else if g.force_query then usage (cstr "--force only makes sense with a glob query") g
  else .ret () g

/-- Lines 343-353 of `main`: unless `force_query`, the pattern and the
exclusion must be printable ASCII. -/
def main_check_printable (g : State) : Outcome Unit :=
  if !g.force_query then
    match g.qd.value with
    | none => .fault
    | some value =>
      match check_printable_ascii value with
      | some msg => usage msg g
      | none =>
        match g.qd.exclude with
        | some exclude =>
          match check_printable_ascii exclude with
          | some msg => usage msg g
          | none => .ret () g
        | none => .ret () g
  else .ret () g

/-- Lines 355-360 of `main`: recondition `qd.value` and `qd.rrtype` for HTML
use.  `escape` is external; when it ends the process, it does so with the
code it gives. -/
def main_recondition (E : Env) (g : State) : Outcome Unit :=
  match E.escape g.qd.value with
  | .error code => my_exit code g
  | .ok value =>
    let g1 := { g with qd := { g.qd with value := value } }
    match E.escape g1.qd.rrtype with
    | .error code => my_exit code g1
    | .ok rrtype => .ret () { g1 with qd := { g1.qd with rrtype := rrtype } }

/-- Lines 362-363 of `main`: the output limit defaults from the query
limit. -/
def main_output_limit (g : State) : Outcome Unit :=
  if g.qd.output_limit = -1 ∧ g.qd.query_limit ≠ -1 then
    .ret () { g with qd := { g.qd with output_limit := g.qd.query_limit } }
  else .ret () g

/-- Lines 365-371 of `main`: the time bounds must be consistent with
`complete`. -/
def main_check_times (g : State) : Outcome Unit :=
  let second : Outcome Unit :=
    if g.qd.complete ∧ g.qd.after = 0 ∧ g.qd.before = 0 then
      usage (cstr "-c without -A or -B makes no sense.") g
    else .ret () g
  if g.qd.after ≠ 0 ∧ g.qd.before ≠ 0 then
    if g.qd.complete ∧ g.qd.after > g.qd.before then
      usage (cstr "-A value must be before -B value if using complete time matching") g
    else second
  else second

/-- Lines 329-371 of `main`: everything between the option loop and the
first use of the validated descriptor. -/
def main_checks (E : Env) (nonopts : Nat) (g : State) : Outcome Unit :=
  (main_need_pattern nonopts g).andThen fun _ g1 =>
  (main_check_force g1).andThen fun _ g2 =>
  (main_check_printable g2).andThen fun _ g3 =>
  (main_recondition E g3).andThen fun _ g4 =>
  (main_output_limit g4).andThen fun _ g5 =>
  main_check_times g5

/-- Lines 92-371 of `main`: start up, process the options, validate the
descriptor.  A normal return is a descriptor that passed validation. -/
def main_validate (E : Env) (inp : Input) (g0 : State) : Outcome Unit :=
  (main_startup E inp g0).andThen fun _ g1 =>
  (main_options E inp.opts g1).andThen fun _ g2 =>
  main_checks E inp.nonopts g2

/-! ## Concrete instances on which the model is evaluated -/

/-- A backend descriptor named `dnsdb2` that accepts the keys `apikey` and
`server`, and builds a URL by prefixing the path. -/
def sys_dnsdb2 : pdns_system :=
  { name := cstr "dnsdb2"
    setval := fun key _ =>
      if key = cstr "apikey" ∨ key = cstr "server" then none
      else some (cstr "unknown setting")
    url := fun path _ _ => some (cstr "https://api.dnsdb.info/dnsdb/v2/" ++ path) }

/-- An environment with the `dnsdb2` backend compiled in, an identity
`escape`, and every time and number unparsable. -/
def env0 : Env :=
  { MAX_VALUE_LEN := 255
    WANT_PDNS_DNSDB2 := true
    DETAILS_SUPPORTED := false
    DNSDBQ_SYSTEM := cstr "DNSDBQ_SYSTEM"
    env_timeout := cstr "DNSDBQ_TIMEOUT"
    ERANGE := 34
    pdns_dnsdb2 := sys_dnsdb2
    time_get := fun _ => none
    strtol := fun _ => ⟨0, 0, 0⟩
    escape := fun p => .ok p }

/-- A program state at process start: nothing selected, nothing written. -/
def state0 : State :=
  { program_name := cstr "dnsdbflex"
    quiet := false
    debug_level := 0
    presentation := .pres_json
    donotverify := false
    curl_timeout := 0
    curl_ipresolve := .CURL_IPRESOLVE_WHATEVER
    psys := none
    force_query := false
    qd := qd_init
    stderr := []
    setvals := []
    fetches := [] }

/-- A glob descriptor over `what` for the pattern `value`. -/
def glob_qd (what : what_to_search_e) (value : CStr) : qdesc :=
  { qd_init with search_method := .method_glob, what_to_search := what,
                 value := some value }

/-- The value of a string of decimal digits (other bytes count as 0). -/
def digits_value (s : CStr) : Nat :=
  s.foldl (fun acc ch => 10 * acc + (ch - 48)) 0

/-- Whether a byte is a decimal digit. -/
def is_digit (ch : Nat) : Bool := decide (48 ≤ ch) && decide (ch ≤ 57)

/-- The environment `env0` with a `time_get` that accepts epoch seconds
written in decimal, and a `strtol` that reads the leading decimal digits. -/
def env1 : Env :=
  { env0 with
    time_get := fun s => if s ≠ [] ∧ s.all is_digit then some (digits_value s) else none
    strtol := fun s => ⟨0, digits_value (s.takeWhile is_digit), (s.takeWhile is_digit).length⟩ }

/-- Reference definition, in the words of the
specification: the time-bound consistency invariant of
section 3 is violated when `complete` is true and either neither `after` nor
`before` is set, or both are set with `after > before`. -/
def spec_time_bounds_fail (qd : qdesc) : Prop :=
  qd.complete = true ∧
    ((qd.after = 0 ∧ qd.before = 0) ∨
     (qd.after ≠ 0 ∧ qd.before ≠ 0 ∧ qd.after > qd.before))

instance (qd : qdesc) : Decidable (spec_time_bounds_fail qd) := by
  unfold spec_time_bounds_fail; infer_instance

/-- The options of `dnsdbflex --glob 'example.*' -A 5 -B 9 -c`. -/
def input_complete : Input :=
  { argv0 := cstr "/usr/bin/dnsdbflex"
    timeout := none
    opts := [.long_glob (cstr "example.*"), .A (cstr "5"), .B (cstr "9"), .c]
    nonopts := 0 }

/-- The state in which `input_complete` leaves validation. -/
def state_complete : State :=
  { state0 with qd := { glob_qd .search_rrnames (cstr "example.*") with
                        after := 5, before := 9, complete := true } }

/-- Reference definition, in the words of the
specification: the glob-suffix policy of section 4.1a.  A glob
pattern is anchored usefully if its last character is one of `* ? ] .`; for
rdata searches a trailing double quote is additionally acceptable. -/
def spec_glob_suffix_ok (what : what_to_search_e) (value : CStr) : Bool :=
  match value.getLast? with
  | none => false
  | some last =>
    last = ch_star ∨ last = ch_question ∨ last = ch_rbracket ∨ last = ch_period ∨
    (what = .search_rdata ∧ last = ch_dquote)

/-- The guidance text `check_glob_trailing_char` selects for a search
target. -/
def glob_msg (what : what_to_search_e) : CStr :=
  if what = .search_rdata then glob_msg_rdata else glob_msg_rrnames

/-- The warning `check_glob_trailing_char` writes when it only warns. -/
def glob_warning (what : what_to_search_e) : Diag :=
  .write (cstr "Warning: " ++ glob_msg what ++
    cstr "\nYou may not get results from your search.\n")

/-- The error `check_glob_trailing_char` writes before it exits. -/
def glob_error (what : what_to_search_e) : Diag :=
  .write (cstr "Error: " ++ glob_msg what ++
    cstr "\nYou may not get results from your search.\n")

/-- The state `state0` in quiet mode (`-q`). -/
def state_quiet : State := { state0 with quiet := true }

/-- Whether an option supplies a search pattern (`--glob` or `--regex`). -/
def is_pattern : Opt → Bool
  | .long_glob _ => true
  | .long_regex _ => true
  | _ => false

/-- A descriptor that holds one pattern: a search method other than none
and a non-empty value. -/
def has_pattern (qd : qdesc) : Prop :=
  (qd.search_method = .method_glob ∨ qd.search_method = .method_regex) ∧
  ∃ v, qd.value = some v ∧ v ≠ []

/-- A postcondition on an outcome: `P` holds of the state after a normal
return, `Q` of the code and state of an exit, and there is no fault. -/
def Outcome.sat {α : Type} (r : Outcome α) (P : State → Prop) (Q : Nat → State → Prop) :
    Prop :=
  match r with
  | .ret _ g => P g
  | .exit c g => Q c g
  | .fault => False

/-- The options of `dnsdbflex -h`. -/
def input_help : Input :=
  { argv0 := cstr "/usr/bin/dnsdbflex", timeout := none, opts := [.h], nonopts := 0 }

/-- The options of `dnsdbflex --glob 'a.*' -h --regex b`. -/
def input_glob_help_regex : Input :=
  { argv0 := cstr "/usr/bin/dnsdbflex"
    timeout := none
    opts := [.long_glob (cstr "a.*"), .h, .long_regex (cstr "b")]
    nonopts := 0 }

/-- The options of `dnsdbflex -q`. -/
def input_no_pattern : Input :=
  { argv0 := cstr "/usr/bin/dnsdbflex", timeout := none, opts := [.q], nonopts := 0 }

/-- The options of `dnsdbflex --regex b --glob 'a.*'`. -/
def input_regex_glob : Input :=
  { argv0 := cstr "/usr/bin/dnsdbflex"
    timeout := none
    opts := [.long_regex (cstr "b"), .long_glob (cstr "a.*")]
    nonopts := 0 }

/-- Reference definition, in the words of the
specification: a byte is printable ASCII when it lies in
0x20..0x7E. -/
def spec_printable (s : CStr) : Prop := ∀ b ∈ s, 0x20 ≤ b ∧ b ≤ 0x7E

instance (s : CStr) : Decidable (spec_printable s) := by
  unfold spec_printable; infer_instance

/-- A regex descriptor state with the force override set. -/
def state_regex_force : State :=
  { state0 with force_query := true,
                qd := { qd_init with search_method := .method_regex,
                                     value := some (cstr "^www\\.") } }

/-- A glob descriptor state whose pattern holds the byte 0x01. -/
def state_unprintable : State :=
  { state0 with qd := glob_qd .search_rrnames [1, 42] }

/-- Reference definition, in the words of the
specification: the fixed path segment of a search method. -/
def spec_method_segment : search_method_e → CStr
  | .method_regex => cstr "regex"
  | .method_glob => cstr "glob"
  | .method_none => []

/-- Reference definition, in the words of the
specification: the fixed path segment of a search target. -/
def spec_target_segment : what_to_search_e → CStr
  | .search_rrnames => cstr "rrnames"
  | .search_rdata => cstr "rdata"

/-- The state `state0` after `-u dnsdb2` selected the backend. -/
def state_selected : State := { state0 with psys := some sys_dnsdb2 }

/-- The config line `dnsdbq system foo`, as `getline` delivers it. -/
def line_system_foo : CStr := cstr "dnsdbq system foo\n"

/-- A config line for the namespace `dnsdb2`: with no backend selected yet
it selects `dnsdb2` by first match and hands the setting to it. -/
def lines_selecting : List CStr :=
  [cstr "dnsdb2 apikey secret\n"]

/-- Later config lines: a `dnsdbq system` directive, a setting, and a line
for another namespace. -/
def lines_later : List CStr :=
  [cstr "dnsdbq system dnsdb2\n", cstr "dnsdb2 server https://example.org\n",
   cstr "circl apikey other\n"]

/-- The three tokens the loop body of `read_configs` takes from a line with
`strtok_r`; a token is `none` when `strtok_r` returns NULL. -/
def conf_tokens (line : CStr) : Option CStr × Option CStr × Option CStr :=
  let r1 := strtok_r (some line) conf_delim []
  let r2 := strtok_r none conf_delim r1.2
  let r3 := strtok_r none conf_delim r2.2
  (r1.1, r2.1, r3.1)

/-- A string that can be one token of a config line: not empty, and free of
the delimiters space and newline. -/
def is_token (tok : CStr) : Prop :=
  tok ≠ [] ∧ ∀ b ∈ tok, b ≠ ch_space ∧ b ≠ ch_newline

instance (tok : CStr) : Decidable (is_token tok) := by
  unfold is_token; infer_instance

/-- The line `echo dnsdbq system $DNSDBQ_SYSTEM` prints when the variable is
not set. -/
def line_system_unset : CStr := cstr "dnsdbq system\n"

/-- The line `echo dnsdb2 apikey $DNSDB_API_KEY` prints when no key is
set. -/
def line_apikey_unset : CStr := cstr "dnsdb2 apikey\n"

/-- The options of `dnsdbflex --regex '^www\.' --exclude '^mail' -q`. -/
def input_regex : Input :=
  { argv0 := cstr "/usr/bin/dnsdbflex"
    timeout := none
    opts := [.long_regex (cstr "^www\\."), .long_exclude (cstr "^mail"), .q]
    nonopts := 0 }

/-- The state in which the option loop leaves `input_regex`, which is also
the state in which it leaves validation. -/
def state_regex : State :=
  { state0 with quiet := true,
                qd := { qd_init with search_method := .method_regex,
                                     value := some (cstr "^www\\."),
                                     exclude := some (cstr "^mail") } }

/-- The options of `dnsdbflex --glob X --exclude Y --force -q`, where `X` is
the byte 0x01 followed by `*` and `Y` is the byte 0x02. -/
def input_glob_force : Input :=
  { argv0 := cstr "/usr/bin/dnsdbflex"
    timeout := none
    opts := [.long_glob [1, 42], .long_exclude [2], .long_force, .q]
    nonopts := 0 }

/-- The state in which `input_glob_force` leaves validation. -/
def state_glob_force : State :=
  { state0 with quiet := true, force_query := true,
                qd := { glob_qd .search_rrnames [1, 42] with exclude := some [2] } }

/-- A glob descriptor state whose pattern is the byte 0x01 followed by
`abc`: a byte that is not printable, and a last character that the glob
suffix policy does not accept. -/
def state_unprintable_suffix : State :=
  { state0 with qd := glob_qd .search_rrnames [1, 97, 98, 99] }

/-! ## Theorems -/

/-- C1: the fence computed in `query_launcher` is the fence of the reference
definition for every `(after, before, complete)`, with 0 meaning unset; in
particular `complete=false, after=5, before=0` sets only `last_after`,
`complete=true, after=5, before=0` sets only `first_after`, and
`after=before=0` gives the empty fence for both values of `complete`. -/
theorem fence_translation_refines_spec (qdp : qdesc) :
    (query_launcher_fence qdp).toSpec
        = spec_fence_of qdp.after qdp.before qdp.complete ∧
    query_launcher_fence { qdp with after := 5, before := 0, complete := false }
        = ⟨0, 0, 5, 0⟩ ∧
    query_launcher_fence { qdp with after := 5, before := 0, complete := true }
        = ⟨5, 0, 0, 0⟩ ∧
    query_launcher_fence { qdp with after := 0, before := 0, complete := false }
        = ⟨0, 0, 0, 0⟩ ∧
    query_launcher_fence { qdp with after := 0, before := 0, complete := true }
        = ⟨0, 0, 0, 0⟩ := by
  refine ⟨?_, by simp [query_launcher_fence], by simp [query_launcher_fence],
    by simp [query_launcher_fence], by simp [query_launcher_fence]⟩
  cases hc : qdp.complete <;> by_cases ha : qdp.after = 0 <;>
    by_cases hb : qdp.before = 0 <;>
    simp [query_launcher_fence, pdns_fence.toSpec, spec_fence_of, fence_field, hc, ha, hb]

/-! ### Sequencing lemmas -/

theorem andThen_ret_iff {α β : Type} (r : Outcome α) (k : α → State → Outcome β)
    (b : β) (g : State) :
    r.andThen k = .ret b g ↔ ∃ a g1, r = .ret a g1 ∧ k a g1 = .ret b g := by
  cases r with
  | ret a g1 =>
    simp only [Outcome.andThen]
    constructor
    · intro h; exact ⟨a, g1, rfl, h⟩
    · rintro ⟨a2, g2, h1, h2⟩
      cases h1; exact h2
  | exit c g1 => simp [Outcome.andThen]
  | fault => simp [Outcome.andThen]

theorem andThen_exit_iff {α β : Type} (r : Outcome α) (k : α → State → Outcome β)
    (c : Nat) (g : State) :
    r.andThen k = .exit c g ↔
      r = .exit c g ∨ ∃ a g1, r = .ret a g1 ∧ k a g1 = .exit c g := by
  cases r with
  | ret a g1 =>
    simp only [Outcome.andThen]
    constructor
    · intro h; exact Or.inr ⟨a, g1, rfl, h⟩
    · rintro (h | ⟨a2, g2, h1, h2⟩)
      · cases h
      · cases h1; exact h2
  | exit c g1 => simp [Outcome.andThen]
  | fault => simp [Outcome.andThen]

theorem usage_eq_exit {α : Type} (msg : CStr) (g : State) :
    ∃ g1, (usage msg g : Outcome α) = .exit 1 g1 ∧ g1.fetches = g.fetches ∧
      g1.psys = g.psys ∧ g1.setvals = g.setvals :=
  ⟨_, rfl, rfl, rfl, rfl⟩

/-! ### Time bounds -/

theorem main_check_times_fail (g : State) (h : spec_time_bounds_fail g.qd) :
    ∃ msg, main_check_times g = usage msg g := by
  obtain ⟨hc, h | ⟨ha, hb, hlt⟩⟩ := h
  · exact ⟨cstr "-c without -A or -B makes no sense.",
      by simp [main_check_times, hc, h.1, h.2]⟩
  · exact ⟨cstr "-A value must be before -B value if using complete time matching",
      by simp [main_check_times, hc, ha, hb, hlt]⟩

theorem main_check_times_pass (g : State) (h : ¬ spec_time_bounds_fail g.qd) :
    main_check_times g = .ret () g := by
  unfold spec_time_bounds_fail at h
  unfold main_check_times
  by_cases hc : g.qd.complete = true <;> by_cases ha : g.qd.after = 0 <;>
    by_cases hb : g.qd.before = 0 <;> simp_all

/-- C2: the time-bound check of validation fails, through `usage` (exit
code 1), exactly when `complete` is true and either neither `after` nor
`before` is set or both are set with `after > before`; it passes, leaving the
state unchanged, in every other case.  So `complete` with `after = T1`,
`before = T2` for set bounds `T1 > T2` fails, `complete` with neither bound
fails, and a descriptor that passes the whole validation of `main` has
`complete` only with a bound set and, when both are set, `after ≤ before`. -/
theorem time_bounds_check (E : Env) (inp : Input) (g0 gv g : State) (T1 T2 : Nat)
    (hT2 : 0 < T2) (hT : T2 < T1)
    (hv : main_validate E inp g0 = .ret () gv) :
    ((∃ msg, main_check_times g = usage msg g) ↔ spec_time_bounds_fail g.qd) ∧
    ((∃ g1, main_check_times g = .exit 1 g1) ↔ spec_time_bounds_fail g.qd) ∧
    (main_check_times g = .ret () g ↔ ¬ spec_time_bounds_fail g.qd) ∧
    (∃ g1, main_check_times
        { g with qd := { g.qd with complete := true, after := T1, before := T2 } }
        = .exit 1 g1) ∧
    (∃ g1, main_check_times
        { g with qd := { g.qd with complete := true, after := 0, before := 0 } }
        = .exit 1 g1) ∧
    (gv.qd.complete = true →
      (gv.qd.after ≠ 0 ∨ gv.qd.before ≠ 0) ∧
      (gv.qd.after ≠ 0 ∧ gv.qd.before ≠ 0 → gv.qd.after ≤ gv.qd.before)) := by
  have hfail : ∀ s : State, spec_time_bounds_fail s.qd →
      ∃ g1, main_check_times s = .exit 1 g1 := by
    intro s hs
    obtain ⟨msg, hm⟩ := main_check_times_fail s hs
    exact ⟨_, by rw [hm]; rfl⟩
  have hpass : ∀ s : State, ¬ spec_time_bounds_fail s.qd →
      main_check_times s = .ret () s := main_check_times_pass
  refine ⟨⟨?_, main_check_times_fail g⟩, ⟨?_, hfail g⟩, ⟨?_, hpass g⟩, ?_, ?_, ?_⟩
  · rintro ⟨msg, hm⟩
    by_contra hn
    rw [hpass g hn] at hm
    simp [usage, my_exit] at hm
  · rintro ⟨g1, hg1⟩
    by_contra hn
    rw [hpass g hn] at hg1
    simp at hg1
  · intro hr hs
    obtain ⟨g1, hg1⟩ := hfail g hs
    rw [hr] at hg1
    simp at hg1
  · apply hfail
    refine ⟨rfl, Or.inr ⟨?_, ?_, ?_⟩⟩ <;> simp <;> omega
  · apply hfail
    exact ⟨rfl, Or.inl ⟨rfl, rfl⟩⟩
  · have hlast : main_check_times gv = .ret () gv := by
      unfold main_validate main_checks at hv
      simp only [andThen_ret_iff] at hv
      obtain ⟨_, g1, _, _, g2, _, _, g3, _, _, g4, _, _, g5, _, _, g6, _, _, g7, _, hlast⟩ := hv
      have hfix : g7 = gv := by
        by_cases hs : spec_time_bounds_fail g7.qd
        · obtain ⟨g8, h8⟩ := hfail g7 hs
          rw [h8] at hlast
          simp at hlast
        · rw [hpass g7 hs] at hlast
          simpa using hlast
      rw [hfix] at hlast
      exact hlast
    have hok : ¬ spec_time_bounds_fail gv.qd := by
      intro hs
      obtain ⟨g7, h7⟩ := hfail gv hs
      rw [h7] at hlast
      simp at hlast
    unfold spec_time_bounds_fail at hok
    intro hc
    constructor
    · by_contra hcon
      push_neg at hcon
      exact hok ⟨hc, Or.inl hcon⟩
    · rintro ⟨ha, hb⟩
      by_contra hcon
      exact hok ⟨hc, Or.inr ⟨ha, hb, by omega⟩⟩

theorem time_bounds_check_witness :
    (0 < 5 ∧ 5 < 9 ∧ main_validate env1 input_complete state0 = .ret () state_complete) ∧
    (((∃ msg, main_check_times state_complete = usage msg state_complete) ↔
        spec_time_bounds_fail state_complete.qd) ∧
    ((∃ g1, main_check_times state_complete = .exit 1 g1) ↔
        spec_time_bounds_fail state_complete.qd) ∧
    (main_check_times state_complete = .ret () state_complete ↔
        ¬ spec_time_bounds_fail state_complete.qd) ∧
    (∃ g1, main_check_times
        { state_complete with
          qd := { state_complete.qd with complete := true, after := 9, before := 5 } }
        = .exit 1 g1) ∧
    (∃ g1, main_check_times
        { state_complete with
          qd := { state_complete.qd with complete := true, after := 0, before := 0 } }
        = .exit 1 g1) ∧
    (state_complete.qd.complete = true →
      (state_complete.qd.after ≠ 0 ∨ state_complete.qd.before ≠ 0) ∧
      (state_complete.qd.after ≠ 0 ∧ state_complete.qd.before ≠ 0 →
        state_complete.qd.after ≤ state_complete.qd.before))) :=
  ⟨⟨by decide, by decide, rfl⟩,
   time_bounds_check env1 input_complete state0 state_complete state_complete 9 5
     (by decide) (by decide) rfl⟩

/-! ### Glob suffix policy -/

/-- The character constants are the codes of the characters the source
compares with. -/
theorem char_codes :
    cstr "*?]./ \n\"" = [ch_star, ch_question, ch_rbracket, ch_period, ch_slash,
      ch_space, ch_newline, ch_dquote] := rfl

theorem last_byte (value : CStr) (last : Nat) (h : value.getLast? = some last) :
    value.getD (strlen value - 1) 0 = last := by
  rw [List.getLast?_eq_getElem?] at h
  simp [strlen, h]

theorem emit_ne (g : State) (d : Diag) : g.emit d ≠ g := by
  intro h
  have := congrArg (fun s => s.stderr.length) h
  simp [State.emit] at this

/-- What `check_glob_trailing_char` does with a non-empty pattern, in terms of
the suffix policy. -/
theorem check_glob_trailing_char_eq (warn_only : Bool) (qdp : qdesc) (value : CStr)
    (g : State) (hv : qdp.value = some value) (hne : value ≠ []) :
    check_glob_trailing_char warn_only qdp g =
      if spec_glob_suffix_ok qdp.what_to_search value = true then .ret () g
      else if warn_only = true then
        (if g.quiet = true then .ret () g
         else .ret () (g.emit (glob_warning qdp.what_to_search)))
      else .exit 1 (g.emit (glob_error qdp.what_to_search)) := by
  obtain ⟨last, hl⟩ : ∃ last, value.getLast? = some last := by
    cases h : value.getLast? with
    | none => exact absurd (List.getLast?_eq_none_iff.mp h) hne
    | some c => exact ⟨c, rfl⟩
  have hlen : strlen value ≠ 0 := by simpa [strlen] using hne
  have hb := last_byte value last hl
  unfold check_glob_trailing_char
  simp only [hv, hlen, if_false, hb, spec_glob_suffix_ok, hl, glob_warning, glob_error,
    glob_msg, my_exit]
  by_cases h1 : last = ch_star ∨ last = ch_question ∨ last = ch_rbracket ∨ last = ch_period
  · have : (last = ch_star ∨ last = ch_question ∨ last = ch_rbracket ∨ last = ch_period ∨
        (qdp.what_to_search = .search_rdata ∧ last = ch_dquote)) := by tauto
    simp [h1, this]
  · have h4 : ¬ last = ch_star ∧ ¬ last = ch_question ∧ ¬ last = ch_rbracket ∧
        ¬ last = ch_period := by tauto
    obtain ⟨ha, hb2, hc, hd2⟩ := h4
    cases hw : qdp.what_to_search <;> by_cases hd : last = ch_dquote <;>
      cases warn_only <;> cases hq : g.quiet <;>
      simp [h1, hd, ha, hb2, hc, hd2]

/-- C3, as stated, fails: with the force override (`warn_only`) and quiet
mode both set, the rrnames pattern `example` returns with no warning and no
exit although its last character is not one of the accepted ones. -/
theorem glob_suffix_silent_counterexample :
    check_glob_trailing_char true (glob_qd .search_rrnames (cstr "example")) state_quiet
      = .ret () state_quiet ∧
    spec_glob_suffix_ok .search_rrnames (cstr "example") = false :=
  ⟨rfl, by decide⟩

/-- C3, amended: for every non-empty glob pattern, a last character among
`* ? ] .` (or a double quote for an rdata search) makes
`check_glob_trailing_char` return with no warning and no exit; unless
`warn_only` and quiet mode are both set, that is the only way it returns
silently; with both set it returns silently for every non-empty pattern. -/
theorem glob_suffix_acceptance (warn_only : Bool) (qdp : qdesc) (value : CStr) (g : State)
    (hv : qdp.value = some value) (hne : value ≠ []) :
    (spec_glob_suffix_ok qdp.what_to_search value = true →
      check_glob_trailing_char warn_only qdp g = .ret () g) ∧
    (¬ (warn_only = true ∧ g.quiet = true) →
      (check_glob_trailing_char warn_only qdp g = .ret () g ↔
        spec_glob_suffix_ok qdp.what_to_search value = true)) ∧
    (warn_only = true → g.quiet = true →
      check_glob_trailing_char warn_only qdp g = .ret () g) := by
  rw [check_glob_trailing_char_eq warn_only qdp value g hv hne]
  refine ⟨fun h => by simp [h], fun hnq => ⟨fun h => ?_, fun h => by simp [h]⟩, ?_⟩
  · by_contra hbad
    rw [if_neg hbad] at h
    cases warn_only with
    | false => simp at h
    | true =>
      cases hq : g.quiet with
      | true => exact hnq ⟨rfl, hq⟩
      | false =>
        simp only [hq, if_true] at h
        simp at h
        exact emit_ne g _ h
  · intro hw hq
    simp [hw, hq]

theorem glob_suffix_acceptance_witness :
    check_glob_trailing_char false (glob_qd .search_rrnames (cstr "example.*")) state0
      = .ret () state0 ∧
    ¬ check_glob_trailing_char false (glob_qd .search_rrnames (cstr "example")) state0
      = .ret () state0 ∧
    ¬ check_glob_trailing_char true (glob_qd .search_rrnames (cstr "example")) state0
      = .ret () state0 ∧
    check_glob_trailing_char false (glob_qd .search_rdata (cstr "example\"")) state0
      = .ret () state0 ∧
    ¬ check_glob_trailing_char false (glob_qd .search_rrnames (cstr "example\"")) state0
      = .ret () state0 ∧
    check_glob_trailing_char true (glob_qd .search_rrnames (cstr "example")) state_quiet
      = .ret () state_quiet :=
  ⟨(glob_suffix_acceptance false (glob_qd .search_rrnames (cstr "example.*"))
      (cstr "example.*") state0 rfl (by decide)).1 (by decide),
   fun h => absurd
    (((glob_suffix_acceptance false (glob_qd .search_rrnames (cstr "example"))
      (cstr "example") state0 rfl (by decide)).2.1 (by decide)).mp h) (by decide),
   fun h => absurd
    (((glob_suffix_acceptance true (glob_qd .search_rrnames (cstr "example"))
      (cstr "example") state0 rfl (by decide)).2.1 (by decide)).mp h) (by decide),
   (glob_suffix_acceptance false (glob_qd .search_rdata (cstr "example\""))
      (cstr "example\"") state0 rfl (by decide)).1 (by decide),
   fun h => absurd
    (((glob_suffix_acceptance false (glob_qd .search_rrnames (cstr "example\""))
      (cstr "example\"") state0 rfl (by decide)).2.1 (by decide)).mp h) (by decide),
   (glob_suffix_acceptance true (glob_qd .search_rrnames (cstr "example"))
      (cstr "example") state_quiet rfl (by decide)).2.2 rfl rfl⟩

/-- C4: for every glob descriptor whose non-empty pattern fails the
glob-suffix policy, with the force override `check_glob_trailing_char`
returns, and the warning is written to the diagnostic stream exactly when
quiet mode is off; without the override the process exits with code 1
whatever the quiet setting.  In `main` the override is `force_query`. -/
theorem glob_suffix_failure_policy (qdp : qdesc) (value : CStr) (g : State)
    (hv : qdp.value = some value) (hne : value ≠ [])
    (hbad : spec_glob_suffix_ok qdp.what_to_search value = false) :
    check_glob_trailing_char true qdp g =
      .ret () (if g.quiet = true then g else g.emit (glob_warning qdp.what_to_search)) ∧
    check_glob_trailing_char false qdp g =
      .exit 1 (g.emit (glob_error qdp.what_to_search)) ∧
    (qdp.search_method = .method_glob →
      main_check_force { g with qd := qdp, force_query := true } =
        .ret () (if g.quiet = true then { g with qd := qdp, force_query := true }
                 else State.emit { g with qd := qdp, force_query := true }
                        (glob_warning qdp.what_to_search)) ∧
      main_check_force { g with qd := qdp, force_query := false } =
        .exit 1 (State.emit { g with qd := qdp, force_query := false }
                  (glob_error qdp.what_to_search))) := by
  have key : ∀ (w : Bool) (s : State), check_glob_trailing_char w qdp s =
      if w = true then
        (if s.quiet = true then .ret () s
         else .ret () (s.emit (glob_warning qdp.what_to_search)))
      else .exit 1 (s.emit (glob_error qdp.what_to_search)) := by
    intro w s
    rw [check_glob_trailing_char_eq w qdp value s hv hne]
    simp [hbad]
  refine ⟨?_, ?_, fun hm => ⟨?_, ?_⟩⟩
  · rw [key]; cases hq : g.quiet <;> simp
  · rw [key]; simp
  · simp only [main_check_force, hm, if_true, key]
    cases hq : g.quiet <;> simp
  · simp only [main_check_force, hm, if_true, key]
    simp

theorem glob_suffix_failure_policy_witness :
    check_glob_trailing_char true (glob_qd .search_rrnames (cstr "example")) state0 =
      .ret () (state0.emit (glob_warning .search_rrnames)) ∧
    check_glob_trailing_char true (glob_qd .search_rrnames (cstr "example")) state_quiet =
      .ret () state_quiet ∧
    check_glob_trailing_char false (glob_qd .search_rrnames (cstr "example")) state_quiet =
      .exit 1 (state_quiet.emit (glob_error .search_rrnames)) :=
  ⟨(glob_suffix_failure_policy (glob_qd .search_rrnames (cstr "example"))
      (cstr "example") state0 rfl (by decide) (by decide)).1,
   (glob_suffix_failure_policy (glob_qd .search_rrnames (cstr "example"))
      (cstr "example") state_quiet rfl (by decide) (by decide)).1,
   (glob_suffix_failure_policy (glob_qd .search_rrnames (cstr "example"))
      (cstr "example") state_quiet rfl (by decide) (by decide)).2.1⟩

/-! ### Postconditions of the stages of `main` -/

theorem sat_andThen {α β : Type} (r : Outcome α) (k : α → State → Outcome β)
    (P P2 : State → Prop) (Q Q2 : Nat → State → Prop)
    (hr : r.sat P Q) (hk : ∀ a g, P g → (k a g).sat P2 Q2)
    (hq : ∀ c g, Q c g → Q2 c g) : (r.andThen k).sat P2 Q2 := by
  cases r with
  | ret a g => exact hk a g hr
  | exit c g => exact hq c g hr
  | fault => exact hr

theorem sat_mono {α : Type} (r : Outcome α) (P P2 : State → Prop)
    (Q Q2 : Nat → State → Prop) (hr : r.sat P Q)
    (hp : ∀ g, P g → P2 g) (hq : ∀ c g, Q c g → Q2 c g) : r.sat P2 Q2 := by
  cases r with
  | ret a g => exact hp g hr
  | exit c g => exact hq c g hr
  | fault => exact hr

theorem main_option_sat (E : Env) (o : Opt) (g : State) :
    (main_option E o g).sat
      (fun g1 => if is_pattern o = true then g.qd.value = none ∧ has_pattern g1.qd
        else g1.qd.value = g.qd.value ∧ g1.qd.search_method = g.qd.search_method)
      (fun c _ => c = 1 ∨ (c = 0 ∧ (o = .h ∨ o = .v))) := by
  cases o <;> simp only [main_option, is_pattern, set_timeout] <;> (repeat' split) <;>
    simp_all [Outcome.sat, usage, my_exit, has_pattern, strlen]

theorem main_options_sat (E : Env) (opts : List Opt) : ∀ g : State,
    (main_options E opts g).sat
      (fun g1 =>
        (opts.countP is_pattern = 0 ∧ g1.qd.value = g.qd.value ∧
          g1.qd.search_method = g.qd.search_method) ∨
        (opts.countP is_pattern = 1 ∧ g.qd.value = none ∧ has_pattern g1.qd))
      (fun c _ => c = 1 ∨ (c = 0 ∧ (Opt.h ∈ opts ∨ Opt.v ∈ opts))) := by
  induction opts with
  | nil => intro g; simp [main_options, Outcome.sat]
  | cons o os ih =>
    intro g
    unfold main_options
    refine sat_andThen _ _ _ _ _ _ (main_option_sat E o g) ?_ ?_
    · intro _ g1 h1
      refine sat_mono _ _ _ _ _ (ih g1) ?_ ?_
      · intro g2 h2
        rw [List.countP_cons]
        by_cases hp : is_pattern o = true
        · simp only [hp, if_true] at h1 ⊢
          rcases h2 with ⟨hc, hv, hm⟩ | ⟨_, hv, _⟩
          · right
            refine ⟨by omega, h1.1, ?_⟩
            obtain ⟨hmeth, w, hw, hne⟩ := h1.2
            exact ⟨by rw [hm]; exact hmeth, w, by rw [hv]; exact hw, hne⟩
          · obtain ⟨_, w, hw, _⟩ := h1.2
            rw [hw] at hv
            cases hv
        · simp only [hp] at h1 ⊢
          rcases h2 with ⟨hc, hv, hm⟩ | ⟨hc, hv, hpat⟩
          · left
            exact ⟨by simpa using hc, hv.trans h1.1, hm.trans h1.2⟩
          · right
            exact ⟨by simpa using hc, by rw [← h1.1]; exact hv, hpat⟩
      · intro c _ hc
        rcases hc with hc | ⟨hc, hh⟩
        · exact Or.inl hc
        · right
          refine ⟨hc, ?_⟩
          rcases hh with hh | hh
          · exact Or.inl (List.mem_cons_of_mem _ hh)
          · exact Or.inr (List.mem_cons_of_mem _ hh)
    · intro c _ hc
      rcases hc with hc | ⟨hc, hh⟩
      · exact Or.inl hc
      · right
        refine ⟨hc, ?_⟩
        rcases hh with hh | hh
        · exact Or.inl (by rw [hh]; exact List.mem_cons_self _ _)
        · exact Or.inr (by rw [hh]; exact List.mem_cons_self _ _)

theorem main_startup_sat (E : Env) (inp : Input) (g0 : State) :
    (main_startup E inp g0).sat
      (fun g => g.qd = qd_init ∧ g.force_query = false ∧ g.fetches = g0.fetches)
      (fun c g => c = 1 ∧ g.fetches = g0.fetches) := by
  unfold main_startup
  cases inp.timeout with
  | none => simp [Outcome.sat]
  | some value =>
    simp only [set_timeout]
    repeat' split
    all_goals simp_all [Outcome.sat, usage, my_exit, State.emit]

theorem main_need_pattern_sat (nonopts : Nat) (g : State) :
    (main_need_pattern nonopts g).sat (fun g1 => g1 = g ∧ g.qd.value ≠ none)
      (fun c g1 => c = 1 ∧ g1.fetches = g.fetches) := by
  unfold main_need_pattern
  repeat' split
  all_goals simp_all [Outcome.sat, usage, my_exit, State.emit]

theorem check_glob_trailing_char_sat (warn_only : Bool) (qdp : qdesc) (g : State)
    (h : qdp.value ≠ none) :
    (check_glob_trailing_char warn_only qdp g).sat
      (fun g1 => g1.qd = g.qd ∧ g1.force_query = g.force_query ∧
        g1.fetches = g.fetches)
      (fun c g1 => c = 1 ∧ g1.fetches = g.fetches) := by
  unfold check_glob_trailing_char
  cases hv : qdp.value with
  | none => exact absurd hv h
  | some value =>
    simp only
    repeat' split
    all_goals simp_all [Outcome.sat, usage, my_exit, State.emit]

theorem main_check_force_sat (g : State) (h : g.qd.value ≠ none) :
    (main_check_force g).sat
      (fun g1 => g1.qd = g.qd ∧ g1.force_query = g.force_query ∧
        g1.fetches = g.fetches ∧
        (g.force_query = true → g.qd.search_method = .method_glob))
      (fun c g1 => c = 1 ∧ g1.fetches = g.fetches) := by
  unfold main_check_force
  split
  · rename_i hm
    refine sat_mono _ _ _ _ _ (check_glob_trailing_char_sat g.force_query g.qd g h) ?_ ?_
    · intro g1 h1
      exact ⟨h1.1, h1.2.1, h1.2.2, fun _ => hm⟩
    · intro c g1 h1; exact h1
  · split
    · simp [Outcome.sat, usage, my_exit, State.emit]
    · rename_i hf
      simp [Outcome.sat, hf]

theorem main_check_printable_sat (g : State) (h : g.qd.value ≠ none) :
    (main_check_printable g).sat
      (fun g1 => g1 = g ∧
        (g.force_query = false → ∀ v, g.qd.value = some v → check_printable_ascii v = none) ∧
        (g.force_query = false → ∀ v, g.qd.exclude = some v → check_printable_ascii v = none))
      (fun c g1 => c = 1 ∧ g1.fetches = g.fetches) := by
  unfold main_check_printable
  cases hv : g.qd.value with
  | none => exact absurd hv h
  | some value =>
    simp only
    repeat' split
    all_goals simp_all [Outcome.sat, usage, my_exit, State.emit]

theorem main_recondition_sat (E : Env) (g : State) :
    (main_recondition E g).sat
      (fun g1 => g1.qd.search_method = g.qd.search_method ∧
        E.escape g.qd.value = .ok g1.qd.value ∧ g1.fetches = g.fetches)
      (fun c g1 => (∃ p, E.escape p = .error c) ∧ g1.fetches = g.fetches) := by
  unfold main_recondition
  cases h1 : E.escape g.qd.value with
  | error c => exact ⟨⟨_, h1⟩, rfl⟩
  | ok value =>
    simp only
    cases h2 : E.escape g.qd.rrtype with
    | error c => exact ⟨⟨_, h2⟩, rfl⟩
    | ok rrtype => simp [Outcome.sat]

theorem main_output_limit_sat (g : State) :
    (main_output_limit g).sat
      (fun g1 => g1.qd.search_method = g.qd.search_method ∧
        g1.qd.value = g.qd.value ∧ g1.fetches = g.fetches)
      (fun _ _ => False) := by
  unfold main_output_limit
  split <;> simp [Outcome.sat]

theorem main_check_times_sat (g : State) :
    (main_check_times g).sat (fun g1 => g1 = g)
      (fun c g1 => c = 1 ∧ g1.fetches = g.fetches) := by
  unfold main_check_times
  repeat' split
  all_goals simp_all [Outcome.sat, usage, my_exit, State.emit]

theorem main_checks_sat (E : Env) (nonopts : Nat) (g : State) :
    (main_checks E nonopts g).sat
      (fun g1 => g.qd.value ≠ none ∧ g1.qd.search_method = g.qd.search_method ∧
        E.escape g.qd.value = .ok g1.qd.value ∧ g1.fetches = g.fetches ∧
        (g.force_query = true → g.qd.search_method = .method_glob) ∧
        (g.force_query = false →
          ∀ v, g.qd.value = some v → check_printable_ascii v = none) ∧
        (g.force_query = false →
          ∀ v, g.qd.exclude = some v → check_printable_ascii v = none))
      (fun c g1 => g1.fetches = g.fetches ∧
        (c = 1 ∨ (g.qd.value ≠ none ∧
          (g.force_query = true → g.qd.search_method = .method_glob) ∧
          ∃ p, E.escape p = .error c))) := by
  unfold main_checks
  refine sat_andThen _ _ _ _ _ _ (main_need_pattern_sat nonopts g) ?_ ?_
  · rintro _ g1 ⟨hg1, hv⟩
    subst hg1
    refine sat_andThen _ _ _ _ _ _ (main_check_force_sat g1 hv) ?_ ?_
    · rintro _ g2 ⟨hqd, hf, hfe, hfg⟩
      have hv2 : g2.qd.value ≠ none := by rw [hqd]; exact hv
      refine sat_andThen _ _ _ _ _ _ (main_check_printable_sat g2 hv2) ?_ ?_
      · rintro _ g3 ⟨hg3, hp1, hp2⟩
        subst hg3
        refine sat_andThen _ _ _ _ _ _ (main_recondition_sat E g3) ?_ ?_
        · rintro _ g4 ⟨hm4, he4, hfe4⟩
          refine sat_andThen _ _ _ _ _ _ (main_output_limit_sat g4) ?_ ?_
          · rintro _ g5 ⟨hm5, hv5, hfe5⟩
            refine sat_mono _ _ _ _ _ (main_check_times_sat g5) ?_ ?_
            · rintro g6 hg6
              subst hg6
              refine ⟨hv, ?_, ?_, ?_, hfg, ?_, ?_⟩
              · rw [hm5, hm4, hqd]
              · rw [hv5, ← hqd]; exact he4
              · rw [hfe5, hfe4, hfe]
              · intro hfq v hvv
                exact hp1 (by rw [hf]; exact hfq) v (by rw [hqd]; exact hvv)
              · intro hfq v hvv
                exact hp2 (by rw [hf]; exact hfq) v (by rw [hqd]; exact hvv)
            · rintro c g6 ⟨hc, hfe6⟩
              exact ⟨by rw [hfe6, hfe5, hfe4, hfe], Or.inl hc⟩
          · intro c g5 hfalse
            exact absurd hfalse id
        · rintro c g4 ⟨hp, hfe4⟩
          exact ⟨by rw [hfe4, hfe], Or.inr ⟨hv, hfg, hp⟩⟩
      · rintro c g3 ⟨hc, hfe3⟩
        exact ⟨by rw [hfe3, hfe], Or.inl hc⟩
    · rintro c g2 ⟨hc, hfe2⟩
      exact ⟨hfe2, Or.inl hc⟩
  · rintro c g1 ⟨hc, hfe1⟩
    exact ⟨hfe1, Or.inl hc⟩

theorem main_validate_sat (E : Env) (inp : Input) (g0 : State) :
    (main_validate E inp g0).sat
      (fun gv => inp.opts.countP is_pattern = 1 ∧
        (gv.qd.search_method = .method_glob ∨ gv.qd.search_method = .method_regex) ∧
        ∃ v, v ≠ [] ∧ E.escape (some v) = .ok gv.qd.value)
      (fun c _ => c = 1 ∨ (c = 0 ∧ (Opt.h ∈ inp.opts ∨ Opt.v ∈ inp.opts)) ∨
        (inp.opts.countP is_pattern = 1 ∧ ∃ p, E.escape p = .error c)) := by
  unfold main_validate
  refine sat_andThen _ _ _ _ _ _ (main_startup_sat E inp g0) ?_ ?_
  · rintro _ g1 ⟨hqd, _, _⟩
    refine sat_andThen _ _ _ _ _ _ (main_options_sat E inp.opts g1) ?_ ?_
    · rintro _ g2 h2
      refine sat_mono _ _ _ _ _ (main_checks_sat E inp.nonopts g2) ?_ ?_
      · rintro g3 ⟨hv, hm, he, _⟩
        rcases h2 with ⟨_, hv2, _⟩ | ⟨hc, _, hmeth, w, hw, hne⟩
        · rw [hv2, hqd] at hv
          exact absurd rfl hv
        · exact ⟨hc, by rw [hm]; exact hmeth, w, hne, by rw [← hw]; exact he⟩
      · rintro c g3 ⟨_, hc | ⟨hv, _, hp⟩⟩
        · exact Or.inl hc
        · rcases h2 with ⟨_, hv2, _⟩ | ⟨hc, _⟩
          · rw [hv2, hqd] at hv
            exact absurd rfl hv
          · exact Or.inr (Or.inr ⟨hc, hp⟩)
    · rintro c g2 hc
      rcases hc with hc | hc
      · exact Or.inl hc
      · exact Or.inr (Or.inl hc)
  · rintro c g1 ⟨hc, _⟩
    exact Or.inl hc

/-! ### Exactly one pattern -/

/-- C5, as stated, fails: `-h` ends the process with exit code 0, so
supplying no pattern (`dnsdbflex -h`), or both patterns with `-h` before the
second one, is not a usage error with exit code 1. -/
theorem pattern_count_exit_counterexample :
    (input_help.opts.countP is_pattern = 0 ∧
      main_validate env0 input_help state0 = .exit 0 state0) ∧
    (input_glob_help_regex.opts.countP is_pattern = 2 ∧
      main_validate env0 input_glob_help_regex state0 =
        .exit 0 { state0 with qd := glob_qd .search_rrnames (cstr "a.*") }) :=
  ⟨⟨by decide, rfl⟩, ⟨by decide, rfl⟩⟩

/-- C5, amended: for every sequence of command-line options, validation
succeeds only if exactly one search pattern (`--glob` or `--regex`) was
supplied; supplying neither or more than one ends the process without a
validated descriptor, with exit code 1, or with exit code 0 when a `-h` or
`-v` among the options ends it first.  Whenever validation succeeds the
search method is glob or regex and the value is the escaped form of a
non-empty pattern, itself non-empty when `escape` keeps non-empty strings
non-empty. -/
theorem exactly_one_pattern (E : Env) (inp : Input) (g0 : State)
    (hesc : ∀ v w, v ≠ [] → E.escape (some v) = .ok w → ∃ w2, w = some w2 ∧ w2 ≠ []) :
    (∀ gv, main_validate E inp g0 = .ret () gv →
      inp.opts.countP is_pattern = 1 ∧
      (gv.qd.search_method = .method_glob ∨ gv.qd.search_method = .method_regex) ∧
      ∃ v, gv.qd.value = some v ∧ v ≠ []) ∧
    (inp.opts.countP is_pattern ≠ 1 →
      (∃ g, main_validate E inp g0 = .exit 1 g) ∨
      ((Opt.h ∈ inp.opts ∨ Opt.v ∈ inp.opts) ∧
        ∃ g, main_validate E inp g0 = .exit 0 g)) := by
  have hsat := main_validate_sat E inp g0
  constructor
  · intro gv hgv
    rw [hgv] at hsat
    obtain ⟨hc, hm, v, hne, he⟩ := hsat
    obtain ⟨w2, hw2, hne2⟩ := hesc v _ hne he
    exact ⟨hc, hm, w2, hw2, hne2⟩
  · intro hcount
    cases hr : main_validate E inp g0 with
    | ret a gv =>
      rw [hr] at hsat
      exact absurd hsat.1 hcount
    | exit c g =>
      rw [hr] at hsat
      rcases hsat with hc | ⟨hc, hh⟩ | ⟨hc, _⟩
      · subst hc; exact Or.inl ⟨g, rfl⟩
      · subst hc; exact Or.inr ⟨hh, g, rfl⟩
      · exact absurd hc hcount
    | fault =>
      rw [hr] at hsat
      exact absurd hsat id

theorem exactly_one_pattern_witness :
    (input_complete.opts.countP is_pattern = 1 ∧
      (state_complete.qd.search_method = .method_glob ∨
        state_complete.qd.search_method = .method_regex) ∧
      ∃ v, state_complete.qd.value = some v ∧ v ≠ []) ∧
    ((∃ g, main_validate env1 input_no_pattern state0 = .exit 1 g) ∨
      ((Opt.h ∈ input_no_pattern.opts ∨ Opt.v ∈ input_no_pattern.opts) ∧
        ∃ g, main_validate env1 input_no_pattern state0 = .exit 0 g)) ∧
    ((∃ g, main_validate env1 input_regex_glob state0 = .exit 1 g) ∨
      ((Opt.h ∈ input_regex_glob.opts ∨ Opt.v ∈ input_regex_glob.opts) ∧
        ∃ g, main_validate env1 input_regex_glob state0 = .exit 0 g)) :=
  ⟨(exactly_one_pattern env1 input_complete state0
      (fun v _ hne h => by cases h; exact ⟨v, rfl, hne⟩)).1 state_complete rfl,
   (exactly_one_pattern env1 input_no_pattern state0
      (fun v _ hne h => by cases h; exact ⟨v, rfl, hne⟩)).2 (by decide),
   (exactly_one_pattern env1 input_regex_glob state0
      (fun v _ hne h => by cases h; exact ⟨v, rfl, hne⟩)).2 (by decide)⟩

/-! ### Printable ASCII -/

theorem check_printable_ascii_none_iff (s : CStr) :
    check_printable_ascii s = none ↔ spec_printable s := by
  induction s with
  | nil => simp [check_printable_ascii, spec_printable]
  | cons ch name ih =>
    by_cases hp : isprint ch = true
    · have hb : 0x20 ≤ ch ∧ ch ≤ 0x7E := by simpa [isprint] using hp
      have hstep : check_printable_ascii (ch :: name) = check_printable_ascii name := by
        simp [check_printable_ascii, hp]
      rw [hstep, ih]
      constructor
      · intro h b hbm
        rcases List.mem_cons.mp hbm with rfl | hbm
        · exact hb
        · exact h b hbm
      · intro h b hbm
        exact h b (List.mem_cons_of_mem _ hbm)
    · have hb : ¬ (0x20 ≤ ch ∧ ch ≤ 0x7E) := by simpa [isprint] using hp
      have hstep : check_printable_ascii (ch :: name) = some printable_ascii_msg := by
        simp [check_printable_ascii, hp]
      rw [hstep]
      constructor
      · intro h; cases h
      · intro h
        exact absurd (h ch (List.mem_cons_self _ _)) hb

theorem check_printable_ascii_msg (s : CStr) (h : ¬ spec_printable s) :
    check_printable_ascii s = some printable_ascii_msg := by
  induction s with
  | nil => exact absurd (by simp [spec_printable]) h
  | cons ch name ih =>
    unfold check_printable_ascii
    by_cases hp : isprint ch = true
    · simp only [hp]
      apply ih
      intro hn
      apply h
      have hb : 0x20 ≤ ch ∧ ch ≤ 0x7E := by simpa [isprint] using hp
      intro b hbm
      rcases List.mem_cons.mp hbm with rfl | hbm
      · exact hb
      · exact hn b hbm
    · simp [hp]

/-- C6, as stated, fails: with the override unset, the glob pattern made of
the byte 0x01 followed by `abc` (`--glob` without `--force`) holds a byte that
is not printable ASCII, yet validation does not end with the usage error that
carries the `\DDD` message: the glob suffix check of line 339 comes first and
ends the process with its own `Error:` text. -/
theorem printable_message_preempted_counterexample :
    state_unprintable_suffix.force_query = false ∧
    state_unprintable_suffix.qd.value = some [1, 97, 98, 99] ∧
    ¬ spec_printable [1, 97, 98, 99] ∧
    main_checks env0 0 state_unprintable_suffix =
      .exit 1 (state_unprintable_suffix.emit (glob_error .search_rrnames)) ∧
    main_checks env0 0 state_unprintable_suffix ≠
      usage printable_ascii_msg state_unprintable_suffix := by
  refine ⟨rfl, rfl, by decide, rfl, ?_⟩
  intro h
  have h1 : main_checks env0 0 state_unprintable_suffix =
      .exit 1 (state_unprintable_suffix.emit (glob_error .search_rrnames)) := rfl
  rw [h1] at h
  have h2 := congrArg
    (fun r : Outcome Unit => match r with
      | .exit _ st => st.stderr.length
      | _ => 0) h
  simp [usage, my_exit, State.emit] at h2

/-- C6, amended: `check_printable_ascii` returns no error exactly when every
byte of its argument is printable ASCII (0x20..0x7E), and its error is the
message that tells the user to encode bytes as `\DDD`.  With the override
(`force_query`) unset, validation ends with exit code 1 whenever the value,
or the exclusion when present, contains any other byte.  The exit is the
usage error with that message when the printable step is reached, that is
when there are no stray arguments and, for a glob, the pattern passes the
glob suffix check; otherwise an earlier check ends the process: stray
arguments and a blank glob pattern through their own usage errors, a glob
pattern with a bad suffix through the `Error:` text of the suffix check. -/
theorem printable_ascii_required (E : Env) (nonopts : Nat) (g : State) (s value : CStr)
    (hf : g.force_query = false) (hv : g.qd.value = some value)
    (hbad : ¬ spec_printable value ∨
      ∃ exclude, g.qd.exclude = some exclude ∧ ¬ spec_printable exclude) :
    (check_printable_ascii s = none ↔ spec_printable s) ∧
    (¬ spec_printable s → check_printable_ascii s = some printable_ascii_msg) ∧
    printable_ascii_msg = cstr "expression argument is not printable ASCII.\n" ++
      cstr "Use \\DDD to encode non-printable characters, " ++
      cstr "where DDD is the decimal value of the character" ∧
    main_check_printable g = usage printable_ascii_msg g ∧
    (usage printable_ascii_msg g : Outcome Unit) =
      .exit 1 { g with stderr := g.stderr ++
        [.write (cstr "error: "), .write printable_ascii_msg, .write (cstr "\n\n"),
         .write (cstr "try   " ++ g.program_name ++
           cstr " -h   for a short description of program usage.\n")] } ∧
    (∃ g1, main_checks E nonopts g = .exit 1 g1) ∧
    (nonopts = 0 →
      (g.qd.search_method = .method_glob →
        spec_glob_suffix_ok g.qd.what_to_search value = true) →
      main_checks E nonopts g = usage printable_ascii_msg g) ∧
    (nonopts = 0 → g.qd.search_method = .method_glob → value ≠ [] →
      spec_glob_suffix_ok g.qd.what_to_search value = false →
      main_checks E nonopts g = .exit 1 (g.emit (glob_error g.qd.what_to_search))) ∧
    (nonopts = 0 → g.qd.search_method = .method_glob → value = [] →
      main_checks E nonopts g = usage (cstr "search argument is blank.") g) ∧
    (nonopts ≠ 0 →
      main_checks E nonopts g =
        usage (cstr "there are no non-option arguments to this program") g) := by
  have hstep : main_check_printable g = usage printable_ascii_msg g := by
    unfold main_check_printable
    simp only [hf, hv, Bool.not_false, if_true]
    by_cases hpv : spec_printable value
    · rcases hbad with hbad | ⟨exclude, hex, hbad⟩
      · exact absurd hpv hbad
      · simp [(check_printable_ascii_none_iff value).mpr hpv, hex,
          check_printable_ascii_msg exclude hbad]
    · simp [check_printable_ascii_msg value hpv]
  have hnp : nonopts = 0 → main_need_pattern nonopts g = .ret () g := by
    intro hn
    simp [main_need_pattern, hn, hv]
  refine ⟨check_printable_ascii_none_iff s, check_printable_ascii_msg s, rfl, hstep,
    ?_, ?_, ?_, ?_, ?_, ?_⟩
  · simp [usage, my_exit, State.emit]
  · have hsat : (main_checks E nonopts g).sat (fun _ => False) (fun c _ => c = 1) := by
      unfold main_checks
      refine sat_andThen _ _ _ _ _ _ (main_need_pattern_sat nonopts g) ?_ ?_
      · rintro _ g1 ⟨hg1, hvn⟩
        subst hg1
        refine sat_andThen _ _ _ _ _ _ (main_check_force_sat g1 hvn) ?_ ?_
        · rintro _ g2 ⟨hqd, hfq, _, _⟩
          have h2 : main_check_printable g2 = usage printable_ascii_msg g2 := by
            unfold main_check_printable
            simp only [hfq, hf, hqd, hv, Bool.not_false, if_true]
            by_cases hpv : spec_printable value
            · rcases hbad with hbad | ⟨exclude, hex, hbad⟩
              · exact absurd hpv hbad
              · simp [(check_printable_ascii_none_iff value).mpr hpv, hex,
                  check_printable_ascii_msg exclude hbad]
            · simp [check_printable_ascii_msg value hpv]
          rw [h2]
          simp [usage, my_exit, Outcome.andThen, Outcome.sat]
        · rintro c g2 ⟨hc, _⟩; exact hc
      · rintro c g1 ⟨hc, _⟩; exact hc
    cases hr : main_checks E nonopts g with
    | ret a g1 => rw [hr] at hsat; exact absurd hsat id
    | exit c g1 =>
      rw [hr] at hsat
      have hc : c = 1 := hsat
      subst hc
      exact ⟨g1, rfl⟩
    | fault => rw [hr] at hsat; exact absurd hsat id
  · intro hn hok
    have hforce : main_check_force g = .ret () g := by
      by_cases hm : g.qd.search_method = .method_glob
      · have hgood := hok hm
        have hne : value ≠ [] := by
          intro he
          rw [he] at hgood
          simp [spec_glob_suffix_ok] at hgood
        simp only [main_check_force, hm, if_true, hf]
        rw [check_glob_trailing_char_eq false g.qd value g hv hne]
        simp [hgood]
      · simp [main_check_force, hm, hf]
    simp [main_checks, hnp hn, hforce, hstep, Outcome.andThen, usage, my_exit]
  · intro hn hm hne hbadsuf
    have hforce : main_check_force g =
        .exit 1 (g.emit (glob_error g.qd.what_to_search)) := by
      simp only [main_check_force, hm, if_true, hf]
      rw [check_glob_trailing_char_eq false g.qd value g hv hne]
      simp [hbadsuf]
    simp [main_checks, hnp hn, hforce, Outcome.andThen]
  · intro hn hm hempty
    have hforce : main_check_force g = usage (cstr "search argument is blank.") g := by
      simp [main_check_force, hm, check_glob_trailing_char, hv, hempty, strlen]
    simp [main_checks, hnp hn, hforce, Outcome.andThen, usage, my_exit]
  · intro hn
    simp [main_checks, main_need_pattern, hn, Outcome.andThen, usage, my_exit]

theorem printable_ascii_required_witness :
    (check_printable_ascii (cstr "www.example.*") = none ↔
      spec_printable (cstr "www.example.*")) ∧
    main_check_printable state_unprintable = usage printable_ascii_msg state_unprintable ∧
    (∃ g1, main_checks env0 0 state_unprintable = .exit 1 g1) ∧
    main_checks env0 0 state_unprintable = usage printable_ascii_msg state_unprintable ∧
    main_checks env0 0 state_unprintable_suffix =
      .exit 1 (state_unprintable_suffix.emit (glob_error .search_rrnames)) ∧
    main_checks env0 1 state_unprintable =
      usage (cstr "there are no non-option arguments to this program")
        state_unprintable :=
  ⟨(printable_ascii_required env0 0 state_unprintable (cstr "www.example.*") [1, 42]
      rfl rfl (Or.inl (by decide))).1,
   (printable_ascii_required env0 0 state_unprintable (cstr "www.example.*") [1, 42]
      rfl rfl (Or.inl (by decide))).2.2.2.1,
   (printable_ascii_required env0 0 state_unprintable (cstr "www.example.*") [1, 42]
      rfl rfl (Or.inl (by decide))).2.2.2.2.2.1,
   (printable_ascii_required env0 0 state_unprintable (cstr "www.example.*") [1, 42]
      rfl rfl (Or.inl (by decide))).2.2.2.2.2.2.1 rfl (fun _ => by decide),
   (printable_ascii_required env0 0 state_unprintable_suffix (cstr "www.example.*")
      [1, 97, 98, 99] rfl rfl (Or.inl (by decide))).2.2.2.2.2.2.2.1 rfl rfl
      (by decide) (by decide),
   (printable_ascii_required env0 1 state_unprintable (cstr "www.example.*") [1, 42]
      rfl rfl (Or.inl (by decide))).2.2.2.2.2.2.2.2.2 (by decide)⟩

/-! ### Force with regex -/

/-- C7: for every descriptor with search method regex and the force
override set, validation ends the process with exit code 1, whatever the
other fields are, and no query has been handed to the fetch engine; when
the earlier checks pass (no stray arguments, a pattern is present) the exit
is the usage error about `--force`. -/
theorem force_with_regex_is_fatal (E : Env) (nonopts : Nat) (g : State)
    (hm : g.qd.search_method = .method_regex) (hf : g.force_query = true) :
    (∃ g1, main_checks E nonopts g = .exit 1 g1 ∧ g1.fetches = g.fetches) ∧
    (∃ g1, main_check_force g = .exit 1 g1) ∧
    (nonopts = 0 → g.qd.value ≠ none →
      main_checks E nonopts g =
        usage (cstr "--force only makes sense with a glob query") g) := by
  have hsat := main_checks_sat E nonopts g
  refine ⟨?_, ?_, ?_⟩
  · cases hr : main_checks E nonopts g with
    | ret a g1 =>
      rw [hr] at hsat
      have := hsat.2.2.2.2.1 hf
      rw [hm] at this
      cases this
    | exit c g1 =>
      rw [hr] at hsat
      obtain ⟨hfe, hc | ⟨_, hg, _⟩⟩ := hsat
      · subst hc; exact ⟨g1, rfl, hfe⟩
      · have := hg hf
        rw [hm] at this
        cases this
    | fault => rw [hr] at hsat; exact absurd hsat id
  · have h : main_check_force g =
        usage (cstr "--force only makes sense with a glob query") g := by
      simp [main_check_force, hm, hf]
    exact ⟨_, by rw [h]; rfl⟩
  · intro hn hv
    simp [main_checks, main_need_pattern, main_check_force, hn, hv, hm, hf,
      Outcome.andThen, usage, my_exit]

theorem force_with_regex_is_fatal_witness :
    (∃ g1, main_checks env0 0 state_regex_force = .exit 1 g1 ∧
      g1.fetches = state_regex_force.fetches) ∧
    main_checks env0 0 state_regex_force =
      usage (cstr "--force only makes sense with a glob query") state_regex_force :=
  ⟨(force_with_regex_is_fatal env0 0 state_regex_force rfl rfl).1,
   (force_with_regex_is_fatal env0 0 state_regex_force rfl rfl).2.2 rfl (by decide)⟩

/-! ### Path construction -/

/-- C8: for every descriptor whose search method is glob or regex,
`makepath` returns the method segment, `/`, the target segment, `/` and the
value, followed by `/` and the rrtype exactly when an rrtype is present; the
segments are `regex` or `glob` and `rrnames` or `rdata`.  A glob descriptor
over rrnames with the stored value `www.example.*` and no rrtype gives
`glob/rrnames/www.example.*`. -/
theorem makepath_builds_path (qdp : qdesc) (value : CStr) (g : State)
    (hm : qdp.search_method = .method_glob ∨ qdp.search_method = .method_regex)
    (hv : qdp.value = some value) :
    makepath qdp g =
      .ret (spec_method_segment qdp.search_method ++ cstr "/" ++
            spec_target_segment qdp.what_to_search ++ cstr "/" ++ value ++
            (match qdp.rrtype with
             | some rrtype => cstr "/" ++ rrtype
             | none => [])) g ∧
    (spec_method_segment qdp.search_method = cstr "glob" ∨
      spec_method_segment qdp.search_method = cstr "regex") ∧
    (spec_target_segment qdp.what_to_search = cstr "rrnames" ∨
      spec_target_segment qdp.what_to_search = cstr "rdata") := by
  have hslash : cstr "/" = [ch_slash] := rfl
  refine ⟨?_, ?_, ?_⟩
  · rcases hm with hm | hm <;> cases ht : qdp.what_to_search <;>
      cases hr : qdp.rrtype <;>
      simp [makepath, hm, ht, hr, hv, spec_method_segment, spec_target_segment, hslash]
  · rcases hm with hm | hm <;> simp [hm, spec_method_segment]
  · cases qdp.what_to_search <;> simp [spec_target_segment]

theorem makepath_builds_path_witness :
    makepath (glob_qd .search_rrnames (cstr "www.example.*")) state0 =
      .ret (cstr "glob/rrnames/www.example.*") state0 ∧
    makepath { glob_qd .search_rdata (cstr "www.example.*") with
               search_method := .method_regex, rrtype := some (cstr "A") } state0 =
      .ret (cstr "regex/rdata/www.example.*/A") state0 :=
  ⟨(makepath_builds_path (glob_qd .search_rrnames (cstr "www.example.*"))
      (cstr "www.example.*") state0 (Or.inl rfl) rfl).1,
   (makepath_builds_path { glob_qd .search_rdata (cstr "www.example.*") with
      search_method := .method_regex, rrtype := some (cstr "A") }
      (cstr "www.example.*") state0 (Or.inr rfl) rfl).1⟩

theorem takeWhile_token (foo : CStr) (h : ∀ b ∈ foo, b ≠ ch_space ∧ b ≠ ch_newline) :
    (foo ++ [ch_newline]).takeWhile (fun c => !conf_delim.contains c) = foo := by
  induction foo with
  | nil => simp [conf_delim, ch_newline, ch_space]
  | cons x xs ih =>
    have hx := h x (List.mem_cons_self _ _)
    have hxs : ∀ b ∈ xs, b ≠ ch_space ∧ b ≠ ch_newline :=
      fun b hb => h b (List.mem_cons_of_mem _ hb)
    have hd : (!conf_delim.contains x) = true := by
      simp [conf_delim, hx.1, hx.2]
    rw [List.cons_append, List.takeWhile_cons]
    simp only [hd, if_true, ih hxs]

theorem dropWhile_token (foo : CStr) (h : ∀ b ∈ foo, b ≠ ch_space ∧ b ≠ ch_newline) :
    (foo ++ [ch_newline]).dropWhile (fun c => !conf_delim.contains c) = [ch_newline] := by
  induction foo with
  | nil => simp [conf_delim, ch_newline, ch_space]
  | cons x xs ih =>
    have hx := h x (List.mem_cons_self _ _)
    have hxs : ∀ b ∈ xs, b ≠ ch_space ∧ b ≠ ch_newline :=
      fun b hb => h b (List.mem_cons_of_mem _ hb)
    have hd : (!conf_delim.contains x) = true := by
      simp [conf_delim, hx.1, hx.2]
    rw [List.cons_append, List.dropWhile_cons]
    simp only [hd, if_true, ih hxs]

theorem strtok_r_last_token (foo : CStr) (hne : foo ≠ [])
    (h : ∀ b ∈ foo, b ≠ ch_space ∧ b ≠ ch_newline) :
    strtok_r none conf_delim (foo ++ [ch_newline]) = (some foo, []) := by
  cases foo with
  | nil => exact absurd rfl hne
  | cons x xs =>
    have hx := h x (List.mem_cons_self _ _)
    have hd : conf_delim.contains x = false := by
      simp [conf_delim, hx.1, hx.2]
    have hdrop : ((x :: xs) ++ [ch_newline]).dropWhile (fun c => conf_delim.contains c)
        = (x :: xs) ++ [ch_newline] := by
      rw [List.cons_append, List.dropWhile_cons]
      simp only [hd, Bool.false_eq_true, if_false]
    unfold strtok_r
    simp only [Option.getD_none, hdrop]
    rw [takeWhile_token (x :: xs) h, dropWhile_token (x :: xs) h]
    simp

theorem system_line_tokens (foo : CStr) (hne : foo ≠ [])
    (h : ∀ b ∈ foo, b ≠ ch_space ∧ b ≠ ch_newline) :
    strtok_r (some (cstr "dnsdbq system " ++ foo ++ [ch_newline])) conf_delim []
      = (some (cstr "dnsdbq"), cstr "system " ++ foo ++ [ch_newline]) ∧
    strtok_r none conf_delim (cstr "system " ++ foo ++ [ch_newline])
      = (some (cstr "system"), foo ++ [ch_newline]) ∧
    strtok_r none conf_delim (foo ++ [ch_newline]) = (some foo, []) := by
  have h1 : cstr "dnsdbq system " =
      [100, 110, 115, 100, 98, 113, 32, 115, 121, 115, 116, 101, 109, 32] := rfl
  have h2 : cstr "system " = [115, 121, 115, 116, 101, 109, 32] := rfl
  have h3 : cstr "dnsdbq" = [100, 110, 115, 100, 98, 113] := rfl
  have h4 : cstr "system" = [115, 121, 115, 116, 101, 109] := rfl
  refine ⟨?_, ?_, strtok_r_last_token foo hne h⟩
  · rw [h1, h2, h3]
    simp [strtok_r, conf_delim, ch_space, ch_newline, List.dropWhile, List.takeWhile]
  · rw [h2, h4]
    simp [strtok_r, conf_delim, ch_space, ch_newline, List.dropWhile, List.takeWhile]

theorem sat_cases {α : Type} (r : Outcome α) (P : State → Prop) (Q : Nat → State → Prop)
    (h : r.sat P Q) :
    (∃ a g, r = .ret a g ∧ P g) ∨ (∃ c g, r = .exit c g ∧ Q c g) := by
  cases r with
  | ret a g => exact Or.inl ⟨a, g, rfl, h⟩
  | exit c g => exact Or.inr ⟨c, g, rfl, h⟩
  | fault => exact absurd h id

theorem read_configs_loop_append (E : Env) (xs ys : List CStr) : ∀ (l : Nat) (g : State),
    read_configs_loop E l (xs ++ ys) g =
      (read_configs_loop E l xs g).andThen fun _ g1 =>
        read_configs_loop E (l + xs.length) ys g1 := by
  induction xs with
  | nil => intro l g; simp [read_configs_loop, Outcome.andThen]
  | cons x xs ih =>
    intro l g
    simp only [List.cons_append, read_configs_loop, List.length_cons]
    cases read_configs_line E (l + 1) x g with
    | ret a g1 =>
      simp only [Outcome.andThen]
      have h := ih (l + 1) g1
      have e : l + 1 + xs.length = l + (xs.length + 1) := by omega
      rw [e] at h
      exact h
    | exit c g1 => simp [Outcome.andThen]
    | fault => simp [Outcome.andThen]

/-! ### The `dnsdbq system` directive -/

/-- C9, as stated, fails: when a backend is already selected (here by
`-u dnsdb2`), the line `dnsdbq system foo` with the unknown name `foo` is
skipped and config resolution returns normally. -/
theorem unknown_system_ignored_counterexample :
    pick_system env0 (cstr "foo") = none ∧
    read_configs_line env0 1 line_system_foo state_selected = .ret () state_selected ∧
    read_configs env0 (.found (cstr "/etc/dnsdb-query.conf") (.ok [line_system_foo]))
      state_selected = .ret () state_selected :=
  ⟨rfl, rfl, rfl⟩

/-- C9, amended: for every config line `dnsdbq system foo` in which `foo` is
not a known backend name, if no backend has been selected when the line is
processed, config resolution terminates the process with exit code 1 and the
logged message `unknown`, the `DNSDBQ_SYSTEM` text and `foo`; if a backend
is already selected the line is ignored. -/
theorem unknown_system_is_fatal (E : Env) (l : Nat) (foo : CStr) (g : State)
    (hne : foo ≠ []) (htok : ∀ b ∈ foo, b ≠ ch_space ∧ b ≠ ch_newline)
    (hunk : pick_system E foo = none) :
    (g.psys = none →
      read_configs_line E l (cstr "dnsdbq system " ++ foo ++ [ch_newline]) g =
        .exit 1 (g.emit (.my_logf (cstr "unknown " ++ E.DNSDBQ_SYSTEM ++ cstr " " ++ foo))) ∧
      ∀ (before after : List CStr) (g0 : State) (cf : CStr),
        read_configs_loop E 0 before g0 = .ret () g →
        read_configs E (.found cf
          (.ok (before ++ (cstr "dnsdbq system " ++ foo ++ [ch_newline]) :: after))) g0 =
          .exit 1 (g.emit (.my_logf
            (cstr "unknown " ++ E.DNSDBQ_SYSTEM ++ cstr " " ++ foo)))) ∧
    (g.psys ≠ none →
      read_configs_line E l (cstr "dnsdbq system " ++ foo ++ [ch_newline]) g =
        .ret () g) := by
  obtain ⟨t1, t2, t3⟩ := system_line_tokens foo hne htok
  have hnl : (cstr "dnsdbq system " ++ foo ++ [ch_newline]).contains ch_newline = true := by
    simp
  have hline : ∀ (n : Nat) (s : State),
      read_configs_line E n (cstr "dnsdbq system " ++ foo ++ [ch_newline]) s =
        if s.psys.isNone = true then
          .exit 1 (s.emit (.my_logf (cstr "unknown " ++ E.DNSDBQ_SYSTEM ++ cstr " " ++ foo)))
        else .ret () s := by
    intro n s
    unfold read_configs_line
    simp only [hnl, Bool.not_true, Bool.false_eq_true, if_false, t1, t2, t3]
    simp only [hne, if_false, if_true, hunk, my_exit, and_true]
    have hsp : cstr " " = [ch_space] := rfl
    rw [hsp]
  refine ⟨fun hp => ⟨?_, ?_⟩, fun hp => ?_⟩
  · rw [hline]; simp [hp]
  · intro before after g0 cf hb
    simp only [read_configs]
    rw [read_configs_loop_append, hb]
    simp only [Outcome.andThen, read_configs_loop]
    rw [hline]
    simp [hp, Outcome.andThen]
  · rw [hline]
    cases hs : g.psys with
    | none => exact absurd hs hp
    | some sys => simp

theorem unknown_system_is_fatal_witness :
    read_configs_line env0 1 (cstr "dnsdbq system " ++ cstr "foo" ++ [ch_newline]) state0 =
      .exit 1 (state0.emit (.my_logf
        (cstr "unknown " ++ env0.DNSDBQ_SYSTEM ++ cstr " " ++ cstr "foo"))) ∧
    read_configs_line env0 1 (cstr "dnsdbq system " ++ cstr "foo" ++ [ch_newline])
      state_selected = .ret () state_selected :=
  ⟨((unknown_system_is_fatal env0 1 (cstr "foo") state0 (by decide) (by decide) rfl).1
      rfl).1,
   (unknown_system_is_fatal env0 1 (cstr "foo") state_selected (by decide) (by decide)
      rfl).2 (by simp [state_selected])⟩

/-! ### Single assignment of the backend -/

theorem read_configs_consume_keeps_psys (sys0 : pdns_system) (tok1 tok2 tok3 : CStr)
    (g : State) (sys : pdns_system) (h : g.psys = some sys) :
    (read_configs_consume sys0 tok1 tok2 tok3 g).sat (fun g1 => g1.psys = some sys)
      (fun _ g1 => g1.psys = some sys) := by
  unfold read_configs_consume
  split
  · cases sys0.setval tok2 tok3 <;> simpa [Outcome.sat, usage, my_exit, State.emit] using h
  · simpa [Outcome.sat] using h

theorem read_configs_line_keeps_psys (E : Env) (l : Nat) (line : CStr) (g : State)
    (sys : pdns_system) (h : g.psys = some sys) :
    (read_configs_line E l line g).sat (fun g1 => g1.psys = some sys)
      (fun _ g1 => g1.psys = some sys) := by
  unfold read_configs_line
  simp only [h]
  repeat' split
  all_goals
    first
    | exact read_configs_consume_keeps_psys _ _ _ _ _ _ h
    | simp_all [Outcome.sat, my_exit, State.emit]

theorem read_configs_loop_keeps_psys (E : Env) (lines : List CStr) (sys : pdns_system) :
    ∀ (l : Nat) (g : State), g.psys = some sys →
      (read_configs_loop E l lines g).sat (fun g1 => g1.psys = some sys)
        (fun _ g1 => g1.psys = some sys) := by
  induction lines with
  | nil => intro l g h; simpa [read_configs_loop, Outcome.sat] using h
  | cons line rest ih =>
    intro l g h
    unfold read_configs_loop
    exact sat_andThen _ _ _ _ _ _ (read_configs_line_keeps_psys E (l + 1) line g sys h)
      (fun _ g1 h1 => ih (l + 1) g1 h1) (fun _ _ hq => hq)

/-- C10: backend selection is single-assignment.  Once a backend is
selected, by `-u` before the config is read or by the config lines read so
far, every later config line leaves it selected, whether the line returns or
ends the process, and so does the rest of the file and `read_configs` as a
whole; a `dnsdbq system` directive is one such line. -/
theorem backend_selection_single_assignment (E : Env) (l : Nat)
    (earlier later : List CStr) (g0 g : State) (sys : pdns_system)
    (hearlier : read_configs_loop E l earlier g0 = .ret () g)
    (hsel : g.psys = some sys) :
    (∀ (n : Nat) (line : CStr),
      (∃ g1, read_configs_line E n line g = .ret () g1 ∧ g1.psys = some sys) ∨
      (∃ c g1, read_configs_line E n line g = .exit c g1 ∧ g1.psys = some sys)) ∧
    ((∃ g1, read_configs_loop E l (earlier ++ later) g0 = .ret () g1 ∧
        g1.psys = some sys) ∨
      (∃ c g1, read_configs_loop E l (earlier ++ later) g0 = .exit c g1 ∧
        g1.psys = some sys)) ∧
    (∀ src : conf_source,
      (∃ g1, read_configs E src g = .ret () g1 ∧ g1.psys = some sys) ∨
      (∃ c g1, read_configs E src g = .exit c g1 ∧ g1.psys = some sys)) := by
  refine ⟨?_, ?_, ?_⟩
  · intro n line
    rcases sat_cases _ _ _ (read_configs_line_keeps_psys E n line g sys hsel) with
      ⟨_, g1, h1, h2⟩ | ⟨c, g1, h1, h2⟩
    · exact Or.inl ⟨g1, h1, h2⟩
    · exact Or.inr ⟨c, g1, h1, h2⟩
  · rw [read_configs_loop_append, hearlier]
    simp only [Outcome.andThen]
    rcases sat_cases _ _ _
        (read_configs_loop_keeps_psys E later sys (l + earlier.length) g hsel) with
      ⟨_, g1, h1, h2⟩ | ⟨c, g1, h1, h2⟩
    · exact Or.inl ⟨g1, h1, h2⟩
    · exact Or.inr ⟨c, g1, h1, h2⟩
  · intro src
    have hsat : (read_configs E src g).sat (fun g1 => g1.psys = some sys)
        (fun _ g1 => g1.psys = some sys) := by
      unfold read_configs
      split
      · simpa [Outcome.sat, my_exit, State.emit] using hsel
      · simpa [Outcome.sat] using hsel
      · simpa [Outcome.sat, my_exit, State.emit] using hsel
      · exact read_configs_loop_keeps_psys E _ sys 0 g hsel
    rcases sat_cases _ _ _ hsat with ⟨_, g1, h1, h2⟩ | ⟨c, g1, h1, h2⟩
    · exact Or.inl ⟨g1, h1, h2⟩
    · exact Or.inr ⟨c, g1, h1, h2⟩

theorem backend_selection_single_assignment_witness :
    (read_configs_loop env0 0 lines_selecting state0 =
        .ret () { state_selected with
                  setvals := [(cstr "dnsdb2", cstr "apikey", cstr "secret")] } ∧
      (State.psys { state_selected with
                  setvals := [(cstr "dnsdb2", cstr "apikey", cstr "secret")] })
        = some sys_dnsdb2) ∧
    ((∃ g1, read_configs_loop env0 0 (lines_selecting ++ lines_later) state0 = .ret () g1 ∧
        g1.psys = some sys_dnsdb2) ∨
      (∃ c g1, read_configs_loop env0 0 (lines_selecting ++ lines_later) state0 =
        .exit c g1 ∧ g1.psys = some sys_dnsdb2)) :=
  ⟨⟨rfl, rfl⟩,
   (backend_selection_single_assignment env0 0 lines_selecting lines_later state0
      { state_selected with setvals := [(cstr "dnsdb2", cstr "apikey", cstr "secret")] }
      sys_dnsdb2 rfl rfl).2.1⟩

/-! ### Lines whose variable is not set -/

theorem takeWhile_token_general (tok rest : CStr) (d : Nat)
    (h : ∀ b ∈ tok, b ≠ ch_space ∧ b ≠ ch_newline) (hd : d = ch_space ∨ d = ch_newline) :
    (tok ++ d :: rest).takeWhile (fun c => !conf_delim.contains c) = tok ∧
    (tok ++ d :: rest).dropWhile (fun c => !conf_delim.contains c) = d :: rest := by
  have hdel : (!conf_delim.contains d) = false := by
    rcases hd with rfl | rfl <;> simp [conf_delim]
  induction tok with
  | nil =>
    simp only [List.nil_append, List.takeWhile_cons, List.dropWhile_cons, hdel]
    simp
  | cons x xs ih =>
    have hx := h x (List.mem_cons_self _ _)
    have hxs : ∀ b ∈ xs, b ≠ ch_space ∧ b ≠ ch_newline :=
      fun b hb => h b (List.mem_cons_of_mem _ hb)
    have hnd : (!conf_delim.contains x) = true := by
      simp [conf_delim, hx.1, hx.2]
    rw [List.cons_append, List.takeWhile_cons, List.dropWhile_cons]
    simp only [hnd, if_true, (ih hxs).1, (ih hxs).2]
    simp

theorem strtok_r_token (s : Option CStr) (sp tok rest : CStr) (d : Nat)
    (hs : s.getD sp = tok ++ d :: rest) (htok : is_token tok)
    (hd : d = ch_space ∨ d = ch_newline) :
    strtok_r s conf_delim sp = (some tok, rest) := by
  obtain ⟨hne, hfree⟩ := htok
  cases tok with
  | nil => exact absurd rfl hne
  | cons x xs =>
    have hx := hfree x (List.mem_cons_self _ _)
    have hc : conf_delim.contains x = false := by
      simp [conf_delim, hx.1, hx.2]
    have hdrop : ((x :: xs) ++ d :: rest).dropWhile (fun c => conf_delim.contains c)
        = x :: (xs ++ d :: rest) := by
      rw [List.cons_append, List.dropWhile_cons]
      simp only [hc, Bool.false_eq_true, if_false]
    obtain ⟨ht, hdr⟩ := takeWhile_token_general (x :: xs) rest d hfree hd
    rw [List.cons_append] at ht hdr
    unfold strtok_r
    simp only [hs, hdrop, ht, hdr]

theorem conf_tokens_two (tok1 tok2 : CStr) (h1 : is_token tok1) (h2 : is_token tok2) :
    conf_tokens (tok1 ++ [ch_space] ++ tok2 ++ [ch_newline]) = (some tok1, some tok2, none) := by
  have e1 : strtok_r (some (tok1 ++ [ch_space] ++ tok2 ++ [ch_newline])) conf_delim []
      = (some tok1, tok2 ++ [ch_newline]) :=
    strtok_r_token _ _ tok1 _ ch_space (by simp) h1 (Or.inl rfl)
  have e2 : strtok_r none conf_delim (tok2 ++ [ch_newline]) = (some tok2, []) :=
    strtok_r_token _ _ tok2 _ ch_newline (by simp) h2 (Or.inr rfl)
  have e3 : strtok_r none conf_delim [] = (none, []) := by
    simp [strtok_r]
  simp only [conf_tokens, e1, e2, e3]

/-- C11: a config line that ends in a newline and has a first and a second
token, but whose third token is absent or empty, is skipped: processing it
returns with the resolver state unchanged, so nothing is written, no backend
is selected (also for `dnsdbq system` and for a namespace that names a known
backend), no setting is handed to a backend, and the loop goes on with the
next line.  Every line `tok1 tok2` is such a line. -/
theorem unset_variable_line_is_skipped (E : Env) (l : Nat) (line tok1 tok2 : CStr)
    (tok3 : Option CStr) (rest : List CStr) (g : State)
    (hnl : ch_newline ∈ line)
    (htoks : conf_tokens line = (some tok1, some tok2, tok3))
    (h3 : tok3 = none ∨ tok3 = some []) :
    read_configs_line E l line g = .ret () g ∧
    read_configs_loop E l (line :: rest) g = read_configs_loop E (l + 1) rest g ∧
    (∀ a b : CStr, is_token a → is_token b →
      read_configs_line E l (a ++ [ch_space] ++ b ++ [ch_newline]) g = .ret () g) := by
  have key : ∀ (n : Nat) (ln t1 t2 : CStr) (t3 : Option CStr), ch_newline ∈ ln →
      conf_tokens ln = (some t1, some t2, t3) → (t3 = none ∨ t3 = some []) →
      read_configs_line E n ln g = .ret () g := by
    intro n ln t1 t2 t3 hn ht h
    have hc : ln.contains ch_newline = true := by simpa using hn
    simp only [conf_tokens, Prod.mk.injEq] at ht
    obtain ⟨ht1, ht2, ht3⟩ := ht
    unfold read_configs_line
    simp only [hc, Bool.not_true, Bool.false_eq_true, if_false, ht1, ht2, ht3]
    rcases h with rfl | rfl <;> simp
  refine ⟨key l line tok1 tok2 tok3 hnl htoks h3, ?_, ?_⟩
  · simp only [read_configs_loop, key (l + 1) line tok1 tok2 tok3 hnl htoks h3,
      Outcome.andThen]
  · intro a b ha hb
    exact key l _ a b none (by simp) (conf_tokens_two a b ha hb) (Or.inl rfl)

theorem unset_variable_line_is_skipped_witness :
    read_configs_line env0 1 line_system_unset state0 = .ret () state0 ∧
    read_configs_line env0 2 line_apikey_unset state0 = .ret () state0 ∧
    read_configs_loop env0 0 [line_system_unset, line_apikey_unset] state0
      = .ret () state0 ∧
    read_configs_line env0 1 (cstr "dnsdb2" ++ [ch_space] ++ cstr "server" ++ [ch_newline])
      state_selected = .ret () state_selected :=
  ⟨(unset_variable_line_is_skipped env0 1 line_system_unset (cstr "dnsdbq")
      (cstr "system") none [] state0 (by decide) rfl (Or.inl rfl)).1,
   (unset_variable_line_is_skipped env0 2 line_apikey_unset (cstr "dnsdb2")
      (cstr "apikey") none [] state0 (by decide) rfl (Or.inl rfl)).1,
   ((unset_variable_line_is_skipped env0 0 line_system_unset (cstr "dnsdbq")
      (cstr "system") none [line_apikey_unset] state0 (by decide) rfl (Or.inl rfl)).2.1).trans
     rfl,
   (unset_variable_line_is_skipped env0 1 line_system_unset (cstr "dnsdbq")
      (cstr "system") none [] state_selected (by decide) rfl (Or.inl rfl)).2.2
      (cstr "dnsdb2") (cstr "server") (by decide) (by decide)⟩

/-! ### Output limit default -/

/-- C12: the output-limit step of validation (lines 362-363 of `main`)
always returns; it sets `output_limit` to `query_limit` when `output_limit`
is unset (-1) and `query_limit` is set (not -1), leaves `output_limit` as it
is in every other case, and changes nothing else, so `query_limit` is never
changed. -/
theorem output_limit_defaults_from_query_limit (g : State) :
    main_output_limit g =
      .ret () { g with qd := { g.qd with
        output_limit := if g.qd.output_limit = -1 ∧ g.qd.query_limit ≠ -1
                        then g.qd.query_limit else g.qd.output_limit } } ∧
    (∃ g1, main_output_limit g = .ret () g1 ∧
      g1.qd.query_limit = g.qd.query_limit ∧
      g1.qd.output_limit =
        (if g.qd.output_limit = -1 ∧ g.qd.query_limit ≠ -1
         then g.qd.query_limit else g.qd.output_limit)) ∧
    main_output_limit { g with qd := { g.qd with output_limit := -1, query_limit := 50 } } =
      .ret () { g with qd := { g.qd with output_limit := 50, query_limit := 50 } } ∧
    main_output_limit { g with qd := { g.qd with output_limit := -1, query_limit := -1 } } =
      .ret () { g with qd := { g.qd with output_limit := -1, query_limit := -1 } } ∧
    main_output_limit { g with qd := { g.qd with output_limit := 7, query_limit := 50 } } =
      .ret () { g with qd := { g.qd with output_limit := 7, query_limit := 50 } } := by
  refine ⟨?_, ?_, ?_, ?_, ?_⟩
  · unfold main_output_limit
    split <;> rename_i h
    · simp [h]
    · simp [h]
  · unfold main_output_limit
    split <;> rename_i h
    · exact ⟨_, rfl, rfl, by simp [h]⟩
    · exact ⟨_, rfl, rfl, by simp [h]⟩
  · simp [main_output_limit]
  · simp [main_output_limit]
  · simp [main_output_limit]

/-! ### The printable check and the force override -/

theorem sat_ret {α : Type} (r : Outcome α) (P : State → Prop) (Q : Nat → State → Prop)
    (a : α) (g : State) (h : r.sat P Q) (hr : r = .ret a g) : P g := by
  subst hr
  exact h

theorem main_recondition_keeps_exclude (E : Env) (g g1 : State)
    (h : main_recondition E g = .ret () g1) : g1.qd.exclude = g.qd.exclude := by
  unfold main_recondition at h
  cases h1 : E.escape g.qd.value with
  | error c => simp [h1, my_exit] at h
  | ok value =>
    simp only [h1] at h
    cases h2 : E.escape g.qd.rrtype with
    | error c => simp [h2, my_exit] at h
    | ok rrtype =>
      simp only [h2, Outcome.ret.injEq, true_and] at h
      rw [← h]

theorem main_output_limit_keeps_exclude (g g1 : State)
    (h : main_output_limit g = .ret () g1) : g1.qd.exclude = g.qd.exclude := by
  unfold main_output_limit at h
  split at h <;> simp only [Outcome.ret.injEq, true_and] at h <;> rw [← h]

theorem main_checks_keeps_exclude (E : Env) (nonopts : Nat) (g g1 : State)
    (h : main_checks E nonopts g = .ret () g1) : g1.qd.exclude = g.qd.exclude := by
  unfold main_checks at h
  simp only [andThen_ret_iff] at h
  obtain ⟨_, s1, h1, _, s2, h2, _, s3, h3, _, s4, h4, _, s5, h5, h6⟩ := h
  obtain ⟨e1, hv⟩ := sat_ret _ _ _ _ _ (main_need_pattern_sat nonopts g) h1
  subst e1
  have e2 := (sat_ret _ _ _ _ _ (main_check_force_sat s1 hv) h2).1
  have hv2 : s2.qd.value ≠ none := by rw [e2]; exact hv
  have e3 := (sat_ret _ _ _ _ _ (main_check_printable_sat s2 hv2) h3).1
  subst e3
  have e4 := main_recondition_keeps_exclude E s3 s4 h4
  have e5 := main_output_limit_keeps_exclude s4 s5 h5
  have e6 : g1 = s5 := sat_ret _ _ _ () g1 (main_check_times_sat s5) h6
  rw [e6, e5, e4, e2]

theorem main_option_keeps_force (E : Env) (o : Opt) (g g1 : State)
    (ho : o ≠ .long_force) (h : main_option E o g = .ret () g1) :
    g1.force_query = g.force_query := by
  cases o <;> simp only [main_option, set_timeout] at h <;>
    first
    | exact absurd rfl ho
    | (repeat' split at h) <;>
        simp_all [usage, my_exit] <;> (try (rw [← h]))

theorem main_checks_glob_force (E : Env) (g : State) (value : CStr)
    (w r : Option CStr)
    (hm : g.qd.search_method = .method_glob) (hf : g.force_query = true)
    (hv : g.qd.value = some value) (hne : value ≠ [])
    (hw : E.escape g.qd.value = .ok w) (hr : E.escape g.qd.rrtype = .ok r)
    (ht : ¬ spec_time_bounds_fail g.qd) :
    ∃ g1, main_checks E 0 g = .ret () g1 := by
  have h1 : main_need_pattern 0 g = .ret () g := by
    simp [main_need_pattern, hv]
  obtain ⟨s2, h2, hqd, hfq⟩ : ∃ s2, main_check_force g = .ret () s2 ∧ s2.qd = g.qd ∧
      s2.force_query = true := by
    simp only [main_check_force, hm, if_true, hf]
    rw [check_glob_trailing_char_eq true g.qd value g hv hne]
    by_cases hok : spec_glob_suffix_ok g.qd.what_to_search value = true
    · exact ⟨g, by simp [hok], rfl, hf⟩
    · cases hq : g.quiet with
      | true => exact ⟨g, by simp [hok], rfl, hf⟩
      | false =>
        exact ⟨g.emit (glob_warning g.qd.what_to_search), by simp [hok], rfl, hf⟩
  have h3 : main_check_printable s2 = .ret () s2 := by
    simp [main_check_printable, hfq]
  have h4 : main_recondition E s2 =
      .ret () { s2 with qd := { s2.qd with value := w, rrtype := r } } := by
    simp [main_recondition, hqd, hw, hr]
  obtain ⟨s5, h5, e5⟩ : ∃ s5,
      main_output_limit { s2 with qd := { s2.qd with value := w, rrtype := r } } =
        .ret () s5 ∧
      s5.qd.complete = g.qd.complete ∧ s5.qd.after = g.qd.after ∧
      s5.qd.before = g.qd.before := by
    unfold main_output_limit
    split
    · exact ⟨_, rfl, by simp [hqd]⟩
    · exact ⟨_, rfl, by simp [hqd]⟩
  have h6 : main_check_times s5 = .ret () s5 := by
    apply main_check_times_pass
    unfold spec_time_bounds_fail at ht ⊢
    rw [e5.1, e5.2.1, e5.2.2]
    exact ht
  exact ⟨s5, by simp [main_checks, h1, h2, h3, h4, h5, h6, Outcome.andThen]⟩

/-- C13: the printable-ASCII check can be bypassed only for glob searches.
For every invocation that passes validation with search method regex,
whatever the options were, the override `force_query` is unset, the value
the option loop stored and the exclusion (when present) consist of printable
ASCII bytes only, the validated value is the escaped form of that value and
the exclusion is unchanged.  `--force` is the only option that changes
`force_query`.  A glob descriptor with the override set passes the checks of
`main` whatever bytes its non-empty value and its exclusion hold, as long as
`escape` succeeds and the time bounds are consistent. -/
theorem printable_bypass_only_for_glob (E : Env) (inp : Input) (g0 gv : State)
    (hv : main_validate E inp g0 = .ret () gv)
    (hm : gv.qd.search_method = .method_regex) :
    (∃ g1 g2 value,
      main_startup E inp g0 = .ret () g1 ∧
      main_options E inp.opts g1 = .ret () g2 ∧
      main_checks E inp.nonopts g2 = .ret () gv ∧
      g2.force_query = false ∧
      g2.qd.search_method = .method_regex ∧
      g2.qd.value = some value ∧ spec_printable value ∧
      E.escape (some value) = .ok gv.qd.value ∧
      gv.qd.exclude = g2.qd.exclude ∧
      ∀ exclude, gv.qd.exclude = some exclude → spec_printable exclude) ∧
    (∀ (o : Opt) (g g1 : State), o ≠ .long_force → main_option E o g = .ret () g1 →
      g1.force_query = g.force_query) ∧
    (∀ (g : State) (value : CStr) (w r : Option CStr),
      g.qd.search_method = .method_glob → g.force_query = true →
      g.qd.value = some value → value ≠ [] →
      E.escape g.qd.value = .ok w → E.escape g.qd.rrtype = .ok r →
      ¬ spec_time_bounds_fail g.qd →
      ∃ g1, main_checks E 0 g = .ret () g1) := by
  refine ⟨?_, main_option_keeps_force E, ?_⟩
  · unfold main_validate at hv
    simp only [andThen_ret_iff] at hv
    obtain ⟨_, g1, h1, _, g2, h2, h3⟩ := hv
    obtain ⟨hvn, hmeth, hesc, _, hfg, hpv, hpe⟩ :=
      sat_ret _ _ _ () gv (main_checks_sat E inp.nonopts g2) h3
    have hm2 : g2.qd.search_method = .method_regex := by rw [← hmeth]; exact hm
    have hf : g2.force_query = false := by
      cases hfq : g2.force_query with
      | false => rfl
      | true =>
        have := hfg hfq
        rw [hm2] at this
        cases this
    have hex := main_checks_keeps_exclude E inp.nonopts g2 gv h3
    cases hval : g2.qd.value with
    | none => exact absurd hval hvn
    | some value =>
      refine ⟨g1, g2, value, h1, h2, h3, hf, hm2, hval,
        (check_printable_ascii_none_iff value).mp (hpv hf value hval), ?_, hex, ?_⟩
      · rw [← hval]; exact hesc
      · intro exclude he
        rw [hex] at he
        exact (check_printable_ascii_none_iff exclude).mp (hpe hf exclude he)
  · intro g value w r hmg hf hval hne hw hr ht
    exact main_checks_glob_force E g value w r hmg hf hval hne hw hr ht

theorem printable_bypass_only_for_glob_witness :
    (main_validate env0 input_regex state0 = .ret () state_regex ∧
      state_regex.qd.search_method = .method_regex) ∧
    (∃ g1 g2 value,
      main_startup env0 input_regex state0 = .ret () g1 ∧
      main_options env0 input_regex.opts g1 = .ret () g2 ∧
      main_checks env0 input_regex.nonopts g2 = .ret () state_regex ∧
      g2.force_query = false ∧
      g2.qd.search_method = .method_regex ∧
      g2.qd.value = some value ∧ spec_printable value ∧
      env0.escape (some value) = .ok state_regex.qd.value ∧
      state_regex.qd.exclude = g2.qd.exclude ∧
      ∀ exclude, state_regex.qd.exclude = some exclude → spec_printable exclude) ∧
    (∃ g1, main_checks env0 0 state_glob_force = .ret () g1) ∧
    main_validate env0 input_glob_force state0 = .ret () state_glob_force ∧
    ¬ spec_printable [1, 42] ∧ ¬ spec_printable [2] :=
  ⟨⟨rfl, rfl⟩,
   (printable_bypass_only_for_glob env0 input_regex state0 state_regex rfl rfl).1,
   (printable_bypass_only_for_glob env0 input_regex state0 state_regex rfl rfl).2.2
     state_glob_force [1, 42] (some [1, 42]) none rfl rfl rfl (by decide) rfl rfl
     (by decide),
   rfl, by decide, by decide⟩

end Dnsdbflex
